import Mathlib

/-!
Shallow embedding of the data-transformation pipeline of
src/src/components/GenericDataChart.tsx and proofs about it.

Modelling conventions:
- JS values in a row are modelled by `Value`: finite numbers as rationals,
  strings, booleans, null, and a single `nan` constructor covering every
  non-finite number (NaN as well as Infinity, which only arises here from a
  division whose denominator coerces to zero).
- a JS object row is an association list with unique keys in insertion
  order; a missing property (undefined) is `Option.none` at lookup.
- JS number-to-string conversion is modelled exactly for integers
  (the only case the theorems evaluate); a non-integral rational is
  rendered as num/den, and non-decimal literals (hex, exponent) are not
  parsed by the string-to-number model.
- Array.prototype.sort with a comparator is modelled as a stable insertion
  sort with respect to the relation (comparator a b <= 0), which agrees
  with the ECMAScript specification whenever the comparator is consistent;
  a comparator returning NaN is mapped to 0 as SortCompare does.
- String.prototype.localeCompare is an external, locale-dependent collator;
  it is taken as an explicit function parameter in the sorting definitions.
-/

namespace DataViz

/-- A JS value stored in a data row. `nan` stands for any non-finite number. -/
inductive Value where
  | num (q : ℚ)
  | str (s : String)
  | bool (b : Bool)
  | null
  | nan
deriving DecidableEq, Repr

/-- A row is a JS object: an association list from property name to value,
keys unique, in insertion order. -/
abbrev Row := List (String × Value)

/-- Property read: row[k], none = undefined. -/
def getVal (row : Row) (k : String) : Option Value :=
  List.lookup k row

/-- Generic association-list write with JS object semantics: an existing
key keeps its position and gets the new value, a new key is appended. -/
def setEntry {β : Type} (l : List (String × β)) (k : String) (v : β) : List (String × β) :=
  match l with
  | [] => [(k, v)]
  | (k', v') :: rest => if k' = k then (k, v) :: rest else (k', v') :: setEntry rest k v

/-- Property write on a row. -/
def setVal (row : Row) (k : String) (v : Value) : Row :=
  setEntry row k v

/-- JS truthiness of a value. -/
def jsTruthy : Value → Bool
  | .num q => q ≠ 0
  | .str s => s ≠ ""
  | .bool b => b
  | .null => false
  | .nan => false

/-- JS truthiness including undefined. -/
def jsTruthyU : Option Value → Bool
  | some v => jsTruthy v
  | none => false

/-- JS number-to-string, exact for integers. -/
def ratToString (q : ℚ) : String :=
  if q.den = 1 then toString q.num else toString q.num ++ "/" ++ toString q.den

/-- JS String(v) for a defined value. -/
def jsToString : Value → String
  | .num q => ratToString q
  | .str s => s
  | .bool b => if b then "true" else "false"
  | .null => "null"
  | .nan => "NaN"

/-- JS String(v) including undefined. -/
def jsToStringU : Option Value → String
  | some v => jsToString v
  | none => "undefined"

/-- JS String.prototype.trim modelled structurally on the character list:
whitespace stripped from both ends. -/
def jsTrim (s : String) : String :=
  String.mk ((((s.data.dropWhile Char.isWhitespace).reverse.dropWhile Char.isWhitespace).reverse))

/-- Decimal digit-string parser used by the Number() model. -/
def parseNatDigits (cs : List Char) : Option ℕ :=
  cs.foldl (fun acc c => acc.bind (fun n => if c.isDigit then some (n * 10 + (c.toNat - 48)) else none)) (some 0)

/-- Split a character list at every dot. -/
def splitDot : List Char → List (List Char)
  | [] => [[]]
  | c :: rest =>
    match splitDot rest with
    | [] => [[]]
    | h :: t => if c = '.' then [] :: h :: t else (c :: h) :: t

/-- JS Number(string): trimmed empty string is 0, a decimal literal with
optional sign and fraction parses, anything else is NaN (none). -/
def strToNum (s : String) : Option ℚ :=
  let t := (jsTrim s).data
  if t = [] then some 0
  else
    let sign : ℚ := if t.headD ' ' = '-' then -1 else 1
    let body := if t.headD ' ' = '-' ∨ t.headD ' ' = '+' then t.drop 1 else t
    match splitDot body with
    | [intPart] =>
        if intPart = [] then none
        else (parseNatDigits intPart).map (fun n => sign * n)
    | [intPart, fracPart] =>
        if intPart = [] ∧ fracPart = [] then none
        else
          match parseNatDigits intPart, parseNatDigits fracPart with
          | some i, some f =>
              some (sign * ((i : ℚ) + (f : ℚ) / ((10 : ℚ) ^ fracPart.length)))
          | _, _ => none
    | _ => none

/-- JS Number(v) coercion; none = NaN. -/
def toNumber : Value → Option ℚ
  | .num q => some q
  | .bool b => some (if b then 1 else 0)
  | .null => some 0
  | .nan => none
  | .str s => strToNum s

/-- JS Number(v) coercion including undefined (which is NaN). -/
def toNumberU : Option Value → Option ℚ
  | some v => toNumber v
  | none => none

/-- JS (v || 0): a falsy or missing value becomes the number 0. -/
def jsOrZero (ov : Option Value) : Value :=
  match ov with
  | some v => if jsTruthy v then v else .num 0
  | none => .num 0

/-- JS (v || 1): a falsy or missing value becomes the number 1. -/
def jsOrOne (ov : Option Value) : Value :=
  match ov with
  | some v => if jsTruthy v then v else .num 1
  | none => .num 1

/-- JS (Number(v) || 0) for a defined value: NaN coercions become 0. -/
def numOr0 (ov : Option Value) : ℚ :=
  match ov with
  | some v => (toNumber v).getD 0
  | none => 0

/-- JS binary + on values: string concatenation if either side is a string,
numeric addition otherwise. -/
def jsAdd (a b : Value) : Value :=
  match a, b with
  | .str s, _ => .str (s ++ jsToString b)
  | _, .str s => .str (jsToString a ++ s)
  | _, _ =>
    match toNumber a, toNumber b with
    | some x, some y => .num (x + y)
    | _, _ => .nan

/-- JS binary + where the left operand may be undefined. -/
def jsAddU (og : Option Value) (v : Value) : Value :=
  match og, v with
  | _, .str s => .str (jsToStringU og ++ s)
  | some a, _ => jsAdd a v
  | none, _ => .nan

/-- JS division; a denominator coercing to zero yields a non-finite number. -/
def jsDiv (a b : Value) : Value :=
  match toNumber a, toNumber b with
  | some x, some y => if y = 0 then .nan else .num (x / y)
  | _, _ => .nan

/-- JS multiplication. -/
def jsMul (a b : Value) : Value :=
  match toNumber a, toNumber b with
  | some x, some y => .num (x * y)
  | _, _ => .nan

/-- JS test (typeof v === number && !isNaN(v)) on a possibly-missing value. -/
def isNumVal : Option Value → Bool
  | some (.num _) => true
  | _ => false

/-- A concrete total collator used to instantiate the locale-compare
parameters in closed statements: the lexicographic order on strings. -/
def lcModel (s t : String) : Int :=
  if s < t then -1 else if s = t then 0 else 1

/-- normalizeColumnName: remove whitespace and hyphens, lowercase
(GenericDataChart.tsx lines 36-38). -/
def normalizeColumnName (c : String) : String :=
  String.mk ((c.data.filter (fun ch => ¬ (ch.isWhitespace ∨ ch = '-'))).map Char.toLower)

/-- JS (v >= q) for a value against a number: coercion to number, NaN fails. -/
def jsGE (v : Value) (q : ℚ) : Bool :=
  match toNumber v with
  | some x => x ≥ q
  | none => false

/-- JS (v > 0), used on the stacked-100 row total. -/
def jsGtZero (v : Value) : Bool :=
  match toNumber v with
  | some q => q > 0
  | none => false

/-- Per-column filter state (interfaces NumericFilterRange and
CategoricalFilter, lines 61-74). -/
inductive FilterConfig where
  | numeric (min max value : ℚ)
  | categorical (availableValues selectedValues : List String)
deriving DecidableEq

/-- The tag of a filter configuration. -/
inductive FilterTag where
  | numericTag
  | categoricalTag
deriving DecidableEq

/-- Tag of a filter configuration value. -/
def tagOf : FilterConfig → FilterTag
  | .numeric _ _ _ => .numericTag
  | .categorical _ _ => .categoricalTag

/-- Whether a row passes one filter configuration on one column, mirroring
the two branches of the filter loop in prepareChartData (lines 1118-1137):
numeric passes when the value is defined and coerces >= the threshold;
categorical passes when the selected set is non-empty and contains the
stringified trimmed value. -/
def passesFilter (column : String) (fc : FilterConfig) (row : Row) : Bool :=
  match fc with
  | .numeric _ _ value =>
    match getVal row column with
    | none => false
    | some v => jsGE v value
  | .categorical _ selectedValues =>
    ¬ selectedValues.isEmpty && selectedValues.contains (jsTrim (jsToStringU (getVal row column)))

/-- One step of the filter loop of prepareChartData (lines 1116-1139): a
numeric filter keeps rows with a defined value >= the threshold; a
categorical filter with no selected values empties the row set, otherwise
it keeps rows whose stringified trimmed value is selected. -/
def applyFilterConfig (column : String) (fc : FilterConfig) (rows : List Row) : List Row :=
  match fc with
  | .numeric _ _ value =>
    rows.filter (fun row =>
      match getVal row column with
      | none => false
      | some v => jsGE v value)
  | .categorical _ selectedValues =>
    if selectedValues.isEmpty then []
    else rows.filter (fun row => selectedValues.contains (jsTrim (jsToStringU (getVal row column))))

/-- The filter stage of prepareChartData over all filter configurations,
applied in entry order (lines 1116-1139). -/
def applyFilterConfigs (cfgs : List (String × FilterConfig)) (rows : List Row) : List Row :=
  cfgs.foldl (fun acc p => applyFilterConfig p.1 p.2 acc) rows

/-- A derived-column formula (the formula objects built by addQuickFormula
and dispatched on by calculateQuickFormulas). `other` covers unrecognized
type tags. -/
inductive Formula where
  | customAverage (columns : List String)
  | customSum (columns : List String)
  | averageSelected
  | sumSelected
  | ratio (column1 column2 : String)
  | percentage (column1 column2 : String)
  | other (t : String)
deriving DecidableEq

/-- calculateQuickFormulas (lines 409-509): evaluates every calculated
column on every row, reading source values from the original row and
writing the result under the formula name. The average keeps only finite
numeric sources; the sum uses (v || 0); ratio and percentage default a
falsy numerator to 0 and a falsy denominator to 1 before the (then
unreachable) zero-denominator guard. -/
def calculateQuickFormulas (selected : List String) (calcCols : List (String × Formula)) (data : List Row) : List Row :=
  if calcCols.isEmpty then data
  else
    data.map (fun row =>
      calcCols.foldl (fun rec nf =>
        match nf.2 with
        | .customAverage cols =>
          let avgValues := cols.filterMap (fun c =>
            match getVal row c with
            | some (.num q) => some q
            | _ => none)
          setVal rec nf.1 (.num (if avgValues.length > 0 then avgValues.sum / (avgValues.length : ℚ) else 0))
        | .customSum cols =>
          setVal rec nf.1 (cols.foldl (fun s c => jsAdd s (jsOrZero (getVal row c))) (Value.num 0))
        | .averageSelected =>
          let selectedNums := selected.filterMap (fun c =>
            match getVal row c with
            | some (.num q) => some q
            | _ => none)
          setVal rec nf.1 (.num (if selectedNums.length > 0 then selectedNums.sum / (selectedNums.length : ℚ) else 0))
        | .sumSelected =>
          setVal rec nf.1 (selected.foldl (fun s c => jsAdd s (jsOrZero (getVal row c))) (Value.num 0))
        | .ratio c1 c2 =>
          let numerator := jsOrZero (getVal row c1)
          let denominator := jsOrOne (getVal row c2)
          setVal rec nf.1 (if denominator ≠ Value.num 0 then jsDiv numerator denominator else .num 0)
        | .percentage c1 c2 =>
          let part := jsOrZero (getVal row c1)
          let total := jsOrOne (getVal row c2)
          setVal rec nf.1 (if total ≠ Value.num 0 then jsMul (jsDiv part total) (.num 100) else .num 0)
        | .other _ => rec) row)

/-- True when a cell is missing in the sense of processData line 879:
null, undefined, or the empty string. -/
def isMissingCell : Option Value → Bool
  | none => true
  | some .null => true
  | some (.str "") => true
  | some _ => false

/-- The value of the first row whose cell in this column is not missing
(processData line 880). -/
def firstNonMissing (rawData : List Row) (col : String) : Option Value :=
  (rawData.find? (fun r => ¬ isMissingCell (getVal r col))).bind (fun r => getVal r col)

/-- Whether a possibly-missing value is a string. -/
def isStrOpt : Option Value → Bool
  | some (.str _) => true
  | _ => false

/-- The value stored for one column of one processed row (processData
lines 879-883): a missing cell (null, undefined, empty string) becomes the
empty string when the first non-missing value of the column is a string
and 0 otherwise; any other value is kept. -/
def procVal (rawData : List Row) (row : Row) (col : String) : Value :=
  let repl := if isStrOpt (firstNonMissing rawData col) then Value.str "" else Value.num 0
  match getVal row col with
  | none => repl
  | some v => if v = .null ∨ v = .str "" then repl else v

/-- Load-time processing of one raw row (processData lines 869-898): id is
the row index, every column is stored under its normalized key with the
value of procVal, and a total field sums the absolute values of the
numeric cells. -/
def processRow (rawData : List Row) (columns : List String) (index : ℕ) (row : Row) : Row :=
  let base : Row := [("id", .num index)]
  let withCols := columns.foldl (fun rec col =>
    setVal rec (normalizeColumnName col) (procVal rawData row col)) base
  let total := columns.foldl (fun s col =>
    jsAdd s (match getVal row col with
      | some (.num q) => Value.num |q|
      | some .nan => Value.nan
      | _ => Value.num 0)) (Value.num 0)
  setVal withCols "total" total

/-- Load-time processing of the raw row set (processData lines 869-898). -/
def processRows (columns : List String) (rawData : List Row) : List Row :=
  rawData.enum.map (fun p => processRow rawData columns p.1 p.2)

/-- True when a sort value compares loosely equal to null (null or
undefined), the first checks of the sortData comparator (lines 299-301). -/
def isNullish : Option Value → Bool
  | none => true
  | some .null => true
  | some _ => false

/-- JS (x - y) on possibly-missing values as a sort comparator result: a
NaN difference is mapped to 0 as the ECMAScript SortCompare does. -/
def jsSubCmp (x y : Option Value) : ℚ :=
  match toNumberU x, toNumberU y with
  | some a, some b => a - b
  | _, _ => 0

/-- The sortData comparator (lines 293-315). Values loosely equal to null
sort last; sorting by count is descending by count; sorting by the x-axis
key is ascending, through the numeric-aware collator lcNum when the value
is a string and by coerced numeric difference otherwise; any other key
sorts descending by coerced numeric value. -/
def sortCmp (lcNum : String → String → Int) (sortBy x : String) (a b : Row) : ℚ :=
  let valA := getVal a sortBy
  let valB := getVal b sortBy
  if isNullish valA && isNullish valB then 0
  else if isNullish valA then 1
  else if isNullish valB then -1
  else if sortBy = "count" then jsSubCmp (getVal b "count") (getVal a "count")
  else if sortBy = x then
    match valA with
    | some (.str s) => ((lcNum s (jsToStringU valB) : ℤ) : ℚ)
    | _ => numOr0 valA - numOr0 valB
  else numOr0 valB - numOr0 valA

/-- sortData (lines 293-315): a stable sort of the rows by the comparator. -/
def sortData (lcNum : String → String → Int) (sortBy x : String) (data : List Row) : List Row :=
  data.insertionSort (fun a b => sortCmp lcNum sortBy x a b ≤ 0)

/-- The grouped sort block of prepareGroupedData (lines 1294-1301): count
descending, a selected column descending by raw difference, and otherwise
ascending by the plain (not numeric-aware) collator lcPlain applied to the
stringified x-axis values. -/
def sortGroupedBlock (lcPlain : String → String → Int) (selected : List String) (sortBy x : String) (data : List Row) : List Row :=
  if sortBy = "count" then
    data.insertionSort (fun a b => jsSubCmp (getVal b "count") (getVal a "count") ≤ 0)
  else if selected.contains sortBy then
    data.insertionSort (fun a b => jsSubCmp (getVal b sortBy) (getVal a sortBy) ≤ 0)
  else
    data.insertionSort (fun a b => ((lcPlain (jsToStringU (getVal a x)) (jsToStringU (getVal b x)) : ℤ) : ℚ) ≤ 0)

/-- Group key of a row (line 1176): the stringified group value, trimmed,
keeping only word characters, whitespace and hyphens. -/
def groupKeyOf (groupBy : String) (row : Row) : String :=
  String.mk ((jsTrim (jsToStringU (getVal row groupBy))).data.filter
    (fun ch => ch.isAlphanum ∨ ch = '_' ∨ ch.isWhitespace ∨ ch = '-'))

/-- Group accumulator initialization (lines 1178-1198): id and the x-axis
field hold the group key, count starts at 0, every selected column starts
at 0, and every available column whose current field is falsy is set to 0. -/
def initGroup (selected : List String) (availCols : List String) (x : String) (key : String) : Row :=
  let g0 : Row := [("id", .str key)]
  let g1 := setVal g0 x (.str key)
  let g2 := setVal g1 "count" (.num 0)
  let g3 := selected.foldl (fun g c => setVal g c (.num 0)) g2
  availCols.foldl (fun g c =>
    let nc := normalizeColumnName c
    if jsTruthyU (getVal g nc) then g else setVal g nc (.num 0)) g3

/-- Folding one row into its group accumulator (lines 1200-1214): for every
available column the value (v || 0) is added when it is a number, a
non-numeric value is kept only when the field is still falsy, and count is
incremented. -/
def foldRowIntoGroup (availCols : List String) (g : Row) (row : Row) : Row :=
  let g1 := availCols.foldl (fun g c =>
    let nc := normalizeColumnName c
    let value := jsOrZero (getVal row nc)
    match value with
    | .num _ => setVal g nc (jsAddU (getVal g nc) value)
    | _ => if jsTruthyU (getVal g nc) then g else setVal g nc value) g
  setVal g1 "count" (jsAddU (getVal g1 "count") (.num 1))

/-- The grouping fold of prepareGroupedData (lines 1172-1215), producing
the groups object in insertion order. -/
def buildGroups (selected availCols : List String) (groupBy x : String) (rows : List Row) : List (String × Row) :=
  rows.foldl (fun groups row =>
    let key := groupKeyOf groupBy row
    let g :=
      match List.lookup key groups with
      | some g => g
      | none => initGroup selected availCols x key
    setEntry groups key (foldRowIntoGroup availCols g row)) []

/-- Recalculation of the calculated columns on one group record (the switch
at lines 1237-1268), reading source values from the already-aggregated
group fields. The grouped switch has no averageSelected, sumSelected, or
default case, so those formulas leave the record unchanged. -/
def recalcGroup (calcCols : List (String × Formula)) (group : Row) : Row :=
  calcCols.foldl (fun rec nf =>
    match nf.2 with
    | .customAverage cols =>
      let avgValues := cols.filterMap (fun c =>
        match getVal group c with
        | some (.num q) => some q
        | _ => none)
      setVal rec nf.1 (.num (if avgValues.length > 0 then avgValues.sum / (avgValues.length : ℚ) else 0))
    | .customSum cols =>
      setVal rec nf.1 (cols.foldl (fun s c => jsAdd s (jsOrZero (getVal group c))) (Value.num 0))
    | .ratio c1 c2 =>
      let numerator := jsOrZero (getVal group c1)
      let denominator := jsOrOne (getVal group c2)
      setVal rec nf.1 (if denominator ≠ Value.num 0 then jsDiv numerator denominator else .num 0)
    | .percentage c1 c2 =>
      let part := jsOrZero (getVal group c1)
      let total := jsOrOne (getVal group c2)
      setVal rec nf.1 (if total ≠ Value.num 0 then jsMul (jsDiv part total) (.num 100) else .num 0)
    | _ => rec) group

/-- prepareGroupedData as written (lines 1166-1307). The recalculation map
at lines 1230-1276 reads the constant groupedDataWithCalculations inside
the callback that initializes it (lines 1272-1274), so the first callback
invocation throws a ReferenceError: the function faults whenever at least
one group exists, and only the empty row set flows through the final sort
and slice. -/
def prepareGroupedData (lcPlain : String → String → Int) (selected availCols : List String)
    (calcCols : List (String × Formula)) (groupBy sortBy x : String) (displayCount : ℕ)
    (filteredData : List Row) : Except String (List Row) :=
  let groups := buildGroups selected availCols groupBy x filteredData
  let groupedData := groups.map (fun kv => kv.2)
  match groupedData with
  | [] => .ok ((sortGroupedBlock lcPlain selected sortBy x []).take displayCount)
  | _ :: _ => .error "ReferenceError: cannot access groupedDataWithCalculations before initialization"

/-- prepareGroupedData with the misplaced sort-and-slice block (lines
1271-1275) removed, which is the composition the surrounding code
presupposes (the logging at lines 1278-1292 and the sort and slice at
lines 1294-1303 both treat groupedDataWithCalculations as the list of
enhanced group records): aggregate, recalculate every calculated column
per group, sort, and truncate. -/
def prepareGroupedDataFixed (lcPlain : String → String → Int) (selected availCols : List String)
    (calcCols : List (String × Formula)) (groupBy sortBy x : String) (displayCount : ℕ)
    (filteredData : List Row) : List Row :=
  let groups := buildGroups selected availCols groupBy x filteredData
  let groupedDataWithCalculations := groups.map (fun kv => recalcGroup calcCols kv.2)
  (sortGroupedBlock lcPlain selected sortBy x groupedDataWithCalculations).take displayCount

/-- Renormalization of one row for the 100 percent stacked bar (vertical
backend, lines 2226-2233): each selected column becomes its percent of the
row total of (v || 0) over the selected columns, or exactly 0 when that
total is not greater than 0. -/
def percentifyRow (selected : List String) (row : Row) : Row :=
  let total := selected.foldl (fun s c => jsAdd s (jsOrZero (getVal row c))) (Value.num 0)
  selected.foldl (fun r c =>
    setVal r c (if jsGtZero total then jsMul (jsDiv (jsOrZero (getVal row c)) total) (.num 100) else .num 0)) row

/-- The percentage data of the vertical stackedBar100 backend (line 2226). -/
def stackedBar100Data (selected : List String) (chartData : List Row) : List Row :=
  chartData.map (percentifyRow selected)

/-- The percentage data of the horizontal stackedBar100 backend
(renderHorizontalStackedBar100, lines 1917-1924; the map body is identical
to the vertical one). -/
def horizontalStackedBar100Data (selected : List String) (chartData : List Row) : List Row :=
  chartData.map (percentifyRow selected)

/-- The fixed value-axis domain of the vertical stackedBar100 backend
(YAxis domain at line 2260). -/
def stackedBar100YDomain : ℚ × ℚ := (0, 100)

/-- The fixed value-axis maximum of the horizontal stackedBar100 backend
(the x scale max at line 1971). -/
def horizontalStackedBar100XMax : ℚ := 100

/-- Whether a selected column has numeric data somewhere in the chart data
(the scatter numeric-column test, lines 2527-2533). -/
def hasNumericData (chartData : List Row) (col : String) : Bool :=
  chartData.any (fun row => isNumVal (getVal row col))

/-- The outcome of the scatter branch of renderChart: an explicit guidance
state when fewer than two numeric columns exist, an explicit empty state
when no row has two numeric coordinates, or the chart with its axis
columns and point rows. -/
inductive ScatterResult where
  | needTwoNumeric (found : ℕ)
  | noValidPoints
  | chart (x y : String) (points : List Row)
deriving DecidableEq

/-- The scatter branch of renderChart (lines 2525-2599): filter the
selected columns to those with numeric data; with fewer than two, return
the guidance state; otherwise x is the first numeric column, y honors the
secondary-axis choice when it is a numeric column and is the second
numeric column otherwise, and rows where either coordinate is not a finite
number are dropped. -/
def scatterDispatch (selected : List String) (secondaryAxis : Option String) (chartData : List Row) : ScatterResult :=
  let numericColumns := selected.filter (hasNumericData chartData)
  match numericColumns with
  | c0 :: c1 :: _ =>
    let y :=
      match secondaryAxis with
      | some s => if numericColumns.contains s then s else c1
      | none => c1
    let scatterData := chartData.filterMap (fun row =>
      match getVal row c0, getVal row y with
      | some (.num xq), some (.num yq) => some (setVal (setVal row c0 (.num xq)) y (.num yq))
      | _, _ => none)
    if scatterData.isEmpty then .noValidPoints else .chart c0 y scatterData
  | _ => .needTwoNumeric numericColumns.length

/-- The chart configuration (interface ChartConfig, lines 77-88). -/
structure ChartConfig where
  selectedColumns : List String
  groupByColumn : Option String
  filterValues : List (String × ℚ)
  filterConfigs : List (String × FilterConfig)
  chartType : String
  sortBy : String
  displayCount : ℕ
  secondaryAxis : Option String
  xAxisColumn : String
  isHorizontal : Bool
deriving DecidableEq

/-- A partial configuration update (Partial of ChartConfig): a present
field replaces the old one on merge. -/
structure ConfigPatch where
  selectedColumns : Option (List String)
  groupByColumn : Option (Option String)
  filterValues : Option (List (String × ℚ))
  filterConfigs : Option (List (String × FilterConfig))
  chartType : Option String
  sortBy : Option String
  displayCount : Option ℕ
  secondaryAxis : Option (Option String)
  xAxisColumn : Option String
  isHorizontal : Option Bool

/-- The spread merge of updateConfig line 1397. -/
def mergeConfig (cfg : ChartConfig) (p : ConfigPatch) : ChartConfig :=
  { selectedColumns := p.selectedColumns.getD cfg.selectedColumns
    groupByColumn := (p.groupByColumn).getD cfg.groupByColumn
    filterValues := p.filterValues.getD cfg.filterValues
    filterConfigs := p.filterConfigs.getD cfg.filterConfigs
    chartType := p.chartType.getD cfg.chartType
    sortBy := p.sortBy.getD cfg.sortBy
    displayCount := p.displayCount.getD cfg.displayCount
    secondaryAxis := (p.secondaryAxis).getD cfg.secondaryAxis
    xAxisColumn := p.xAxisColumn.getD cfg.xAxisColumn
    isHorizontal := p.isHorizontal.getD cfg.isHorizontal }

/-- updateConfig (lines 1395-1419): merge the patch, and when the patch
carries selected columns, repair sortBy to the first selected column (or
the x-axis key when none are selected) unless it is already among the
selected columns, the x-axis key, or count when grouping is set. -/
def updateConfig (cfg : ChartConfig) (p : ConfigPatch) : ChartConfig :=
  let newConfig := mergeConfig cfg p
  match p.selectedColumns with
  | none => newConfig
  | some _ =>
    let validSortOptions := newConfig.selectedColumns ++ [newConfig.xAxisColumn] ++
      (match newConfig.groupByColumn with
       | some _ => ["count"]
       | none => [])
    if validSortOptions.contains newConfig.sortBy then newConfig
    else
      { newConfig with sortBy :=
          match newConfig.selectedColumns with
          | c :: _ => c
          | [] => newConfig.xAxisColumn }

/-- A partial filter-configuration update (Partial of FilterConfig). -/
structure FilterPatch where
  type : Option FilterTag
  min : Option ℚ
  max : Option ℚ
  value : Option ℚ
  availableValues : Option (List String)
  selectedValues : Option (List String)

/-- updateFilterConfig (lines 1422-1454): no entry for the column leaves
the map unchanged; a numeric filter merges the patch unless the patch tag
is categorical, a categorical filter merges unless the patch tag is
numeric, and a cross-tag patch leaves the filter unchanged. -/
def updateFilterConfig (cfgs : List (String × FilterConfig)) (column : String) (updates : FilterPatch) : List (String × FilterConfig) :=
  match List.lookup column cfgs with
  | none => cfgs
  | some currentFilter =>
    let updatedFilter :=
      match currentFilter with
      | .numeric mn mx v =>
        if updates.type ≠ some .categoricalTag then
          FilterConfig.numeric (updates.min.getD mn) (updates.max.getD mx) (updates.value.getD v)
        else currentFilter
      | .categorical av sv =>
        if updates.type ≠ some .numericTag then
          FilterConfig.categorical (updates.availableValues.getD av) (updates.selectedValues.getD sv)
        else currentFilter
    setEntry cfgs column updatedFilter

/-- Numeric column statistics (interface ColumnStats, lines 54-58). -/
structure ColumnStats where
  min : ℚ
  max : ℚ
  avg : ℚ
deriving DecidableEq

/-- The component state touched by the data-load paths. -/
structure ComponentState where
  rawData : List Row
  data : List Row
  availableColumns : List String
  dataStats : List (String × ColumnStats)
  savedConfigs : List (String × ChartConfig)
  configName : String
  uploadedFileName : Option String
  loading : Bool
  error : Option String
  config : ChartConfig
  calculatedColumns : List (String × Formula)

/-- The synchronous state reset performed by handleFile before parsing an
uploaded file (lines 608-631): the uploaded file name is recorded, the raw
and processed row sets, available columns and stats are cleared, and the
config keeps everything except selectedColumns, filterValues and
filterConfigs, which are emptied. -/
def handleFileReset (fileName : String) (s : ComponentState) : ComponentState :=
  { s with
    uploadedFileName := some fileName
    rawData := []
    data := []
    availableColumns := []
    dataStats := []
    config := { s.config with selectedColumns := [], filterValues := [], filterConfigs := [] }
    loading := true }

/-- The initial config installed by fetchData (lines 672-682). The config
literal has no isHorizontal property; the missing flag is modelled as
false. -/
def initialFetchConfig (defaultYColumns : List String) (defaultXAxis : Option String)
    (defaultChartType : String) (defaultDisplayCount : ℕ) : ChartConfig :=
  { selectedColumns := defaultYColumns.map normalizeColumnName
    groupByColumn := none
    filterValues := []
    filterConfigs := []
    chartType := defaultChartType
    sortBy :=
      match defaultYColumns with
      | c :: _ => normalizeColumnName c
      | [] => "id"
    displayCount := defaultDisplayCount
    secondaryAxis := none
    xAxisColumn :=
      match defaultXAxis with
      | some c => normalizeColumnName c
      | none => "id"
    isHorizontal := false }

/-- The state reset performed by fetchData on a data-source change before
fetching and parsing (lines 656-686): row sets, columns, stats, saved
configs, config name and uploaded file name are cleared, loading is set,
the error is cleared, and the config is replaced by the initial config. -/
def fetchDataReset (defaultYColumns : List String) (defaultXAxis : Option String)
    (defaultChartType : String) (defaultDisplayCount : ℕ) (s : ComponentState) : ComponentState :=
  { s with
    rawData := []
    data := []
    availableColumns := []
    dataStats := []
    savedConfigs := []
    configName := ""
    uploadedFileName := none
    loading := true
    error := none
    config := initialFetchConfig defaultYColumns defaultXAxis defaultChartType defaultDisplayCount }

set_option maxHeartbeats 4000000

/-! Helper lemmas about association-list reads and writes. -/

lemma lookup_entry_nil {β : Type} (k : String) : List.lookup k ([] : List (String × β)) = none := rfl

lemma lookup_entry_cons {β : Type} (k0 : String) (v0 : β) (rest : List (String × β)) (k : String) :
    List.lookup k ((k0, v0) :: rest) = if k = k0 then some v0 else List.lookup k rest := by
  by_cases h : k = k0
  · subst h; simp [List.lookup_cons]
  · have hb : (k == k0) = false := beq_eq_false_iff_ne.mpr h
    simp [List.lookup_cons, hb, h]

lemma setEntry_nil {β : Type} (k : String) (v : β) : setEntry [] k v = [(k, v)] := rfl

lemma setEntry_cons {β : Type} (k0 : String) (v0 : β) (rest : List (String × β)) (k : String) (v : β) :
    setEntry ((k0, v0) :: rest) k v =
      if k0 = k then (k, v) :: rest else (k0, v0) :: setEntry rest k v := rfl

lemma getVal_nil (k : String) : getVal [] k = none := rfl

lemma getVal_cons (k0 : String) (v0 : Value) (rest : Row) (k : String) :
    getVal ((k0, v0) :: rest) k = if k = k0 then some v0 else getVal rest k :=
  lookup_entry_cons k0 v0 rest k

lemma setVal_nil (k : String) (v : Value) : setVal [] k v = [(k, v)] := rfl

lemma setVal_cons (k0 : String) (v0 : Value) (rest : Row) (k : String) (v : Value) :
    setVal ((k0, v0) :: rest) k v =
      if k0 = k then (k, v) :: rest else (k0, v0) :: setVal rest k v := rfl

lemma jsAdd_num_num (x y : ℚ) : jsAdd (.num x) (.num y) = .num (x + y) := rfl

lemma jsDiv_num_num (x y : ℚ) : jsDiv (.num x) (.num y) = if y = 0 then Value.nan else .num (x / y) := rfl

lemma jsMul_num_num (x y : ℚ) : jsMul (.num x) (.num y) = .num (x * y) := rfl

lemma lookup_setEntry_self {β : Type} (l : List (String × β)) (k : String) (v : β) :
    List.lookup k (setEntry l k v) = some v := by
  induction l with
  | nil => simp [setEntry, List.lookup_cons]
  | cons p rest ih =>
    obtain ⟨k', v'⟩ := p
    by_cases h : k' = k
    · subst h
      simp [setEntry, List.lookup_cons]
    · have hb : (k == k') = false := beq_eq_false_iff_ne.mpr (Ne.symm h)
      simp [setEntry, h, List.lookup_cons, hb, ih]

lemma lookup_setEntry_ne {β : Type} (l : List (String × β)) (k k' : String) (v : β)
    (h : k' ≠ k) : List.lookup k' (setEntry l k v) = List.lookup k' l := by
  induction l with
  | nil =>
    have hb : (k' == k) = false := beq_eq_false_iff_ne.mpr h
    simp [setEntry, List.lookup_cons, hb]
  | cons p rest ih =>
    obtain ⟨k0, v0⟩ := p
    by_cases hp : k0 = k
    · subst hp
      have hb : (k' == k0) = false := beq_eq_false_iff_ne.mpr h
      simp [setEntry, List.lookup_cons, hb]
    · cases hkk : (k' == k0) <;> simp [setEntry, hp, List.lookup_cons, hkk, ih]

lemma getVal_setVal_self (row : Row) (k : String) (v : Value) :
    getVal (setVal row k v) k = some v :=
  lookup_setEntry_self row k v

lemma getVal_setVal_ne (row : Row) (k k' : String) (v : Value) (h : k' ≠ k) :
    getVal (setVal row k v) k' = getVal row k' :=
  lookup_setEntry_ne row k k' v h

lemma setVal_getVal_id (row : Row) (k : String) (v : Value) (h : getVal row k = some v) :
    setVal row k v = row := by
  induction row with
  | nil => simp [getVal] at h
  | cons p rest ih =>
    obtain ⟨k0, v0⟩ := p
    by_cases hp : k0 = k
    · subst hp
      have hv : v0 = v := by
        simpa [getVal, List.lookup_cons] using h
      simp [setVal, setEntry, hv]
    · have hb : (k == k0) = false := beq_eq_false_iff_ne.mpr (Ne.symm hp)
      have hrest : getVal rest k = some v := by
        simpa [getVal, List.lookup_cons, hb] using h
      simpa [setVal, setEntry, hp] using ih hrest

/-! C5: the data-load state resets. -/

/-- C5 counterexample: at a state with a calculated column and an active
grouping, neither load path discards the calculated columns, and the
file-upload path keeps the grouping selection, so a new load does not
discard all prior derived state before parsing begins. -/
theorem loadReset_claim_counterexample :
    (handleFileReset "f.csv"
        ⟨[], [], [], [], [], "", none, false, none,
          ⟨["a"], some "cat", [], [], "line", "a", 10, none, "x", false⟩,
          [("r", .ratio "a" "b")]⟩).calculatedColumns = [("r", .ratio "a" "b")] ∧
    (handleFileReset "f.csv"
        ⟨[], [], [], [], [], "", none, false, none,
          ⟨["a"], some "cat", [], [], "line", "a", 10, none, "x", false⟩,
          [("r", .ratio "a" "b")]⟩).config.groupByColumn = some "cat" ∧
    (fetchDataReset [] none "stackedBar" 20
        ⟨[], [], [], [], [], "", none, false, none,
          ⟨["a"], some "cat", [], [], "line", "a", 10, none, "x", false⟩,
          [("r", .ratio "a" "b")]⟩).calculatedColumns = [("r", .ratio "a" "b")] :=
  ⟨rfl, rfl, rfl⟩

/-- C5 amended: starting a new data load clears the raw and processed row
sets, the available columns, the column stats, and the filter state
(selectedColumns, filterValues, filterConfigs) before parsing; the
path-change load additionally replaces the whole config, clearing the
grouping selection; the calculated (derived) column definitions persist
across both load paths, and the file-upload path also keeps the previous
grouping selection. -/
theorem loadReset_amended (fileName : String) (dy : List String) (dx : Option String)
    (dct : String) (ddc : ℕ) (s : ComponentState) :
    (handleFileReset fileName s).rawData = [] ∧
    (handleFileReset fileName s).data = [] ∧
    (handleFileReset fileName s).availableColumns = [] ∧
    (handleFileReset fileName s).dataStats = [] ∧
    (handleFileReset fileName s).config.selectedColumns = [] ∧
    (handleFileReset fileName s).config.filterValues = [] ∧
    (handleFileReset fileName s).config.filterConfigs = [] ∧
    (handleFileReset fileName s).config.groupByColumn = s.config.groupByColumn ∧
    (handleFileReset fileName s).calculatedColumns = s.calculatedColumns ∧
    (fetchDataReset dy dx dct ddc s).rawData = [] ∧
    (fetchDataReset dy dx dct ddc s).data = [] ∧
    (fetchDataReset dy dx dct ddc s).availableColumns = [] ∧
    (fetchDataReset dy dx dct ddc s).dataStats = [] ∧
    (fetchDataReset dy dx dct ddc s).config.filterValues = [] ∧
    (fetchDataReset dy dx dct ddc s).config.filterConfigs = [] ∧
    (fetchDataReset dy dx dct ddc s).config.groupByColumn = none ∧
    (fetchDataReset dy dx dct ddc s).calculatedColumns = s.calculatedColumns :=
  ⟨rfl, rfl, rfl, rfl, rfl, rfl, rfl, rfl, rfl, rfl, rfl, rfl, rfl, rfl, rfl, rfl, rfl⟩

/-! C9: filter updates never change the tagged type. -/

/-- C9: for every filter-configuration update on any column, the tagged
type of every filter after the update equals its type before the update,
including when the patch carries a different type tag. -/
theorem updateFilterConfig_preserves_tag (cfgs : List (String × FilterConfig))
    (column : String) (updates : FilterPatch) (c : String) :
    (List.lookup c (updateFilterConfig cfgs column updates)).map tagOf =
      (List.lookup c cfgs).map tagOf := by
  unfold updateFilterConfig
  cases hcur : List.lookup column cfgs with
  | none => rfl
  | some currentFilter =>
    by_cases hc : c = column
    · subst hc
      rw [lookup_setEntry_self, hcur]
      cases currentFilter with
      | numeric mn mx v =>
        by_cases ht : updates.type ≠ some FilterTag.categoricalTag <;> simp [ht, tagOf]
      | categorical av sv =>
        by_cases ht : updates.type ≠ some FilterTag.numericTag <;> simp [ht, tagOf]
    · rw [lookup_setEntry_ne _ _ _ _ hc]

/-! C2: the ratio and percentage zero-denominator behavior. -/

/-- C2 evaluation at the failing input: on the row with a = 5 and b = 0,
the derived ratio(a, b) column is 5 (the numerator) and percentage(a, b)
is 500, because (row.b || 1) turns the zero denominator into 1 before the
zero-denominator guard, which is therefore unreachable; the claim and the
spec say both should be 0. -/
theorem ratioZeroDenominator_behavior :
    calculateQuickFormulas [] [("r", .ratio "a" "b")]
        [[("a", Value.num 5), ("b", Value.num 0)]] =
      [[("a", Value.num 5), ("b", Value.num 0), ("r", Value.num 5)]] ∧
    calculateQuickFormulas [] [("p", .percentage "a" "b")]
        [[("a", Value.num 5), ("b", Value.num 0)]] =
      [[("a", Value.num 5), ("b", Value.num 0), ("p", Value.num 500)]] := by
  constructor <;>
    norm_num +decide [calculateQuickFormulas, getVal_nil, getVal_cons, setVal_nil, setVal_cons,
      jsOrZero, jsOrOne, jsTruthy, jsDiv_num_num, jsMul_num_num]

/-! C1: aggregate-then-derive on the grouped path. -/

/-- C1 evaluation at the spec scenario: grouping the rows with cat = g,
(a, b) = (10, 0) and (0, 10) by cat with a ratio(a, b) derived column.
prepareGroupedData as written faults with a ReferenceError (the
recalculation map reads the constant it is initializing), so the grouped
record never reaches the chart; with the misplaced sort-and-slice block
removed, the code produces exactly the aggregate-then-derive result the
claim describes: sum a = 10, sum b = 10, derived ratio 1. -/
theorem aggregateThenDerive_scenario :
    prepareGroupedData (fun _ _ => 0) ["a", "b"] ["cat", "a", "b"]
        [("r", .ratio "a" "b")] "cat" "a" "cat" 10
        [[("cat", Value.str "g"), ("a", Value.num 10), ("b", Value.num 0)],
         [("cat", Value.str "g"), ("a", Value.num 0), ("b", Value.num 10)]] =
      .error "ReferenceError: cannot access groupedDataWithCalculations before initialization" ∧
    prepareGroupedDataFixed (fun _ _ => 0) ["a", "b"] ["cat", "a", "b"]
        [("r", .ratio "a" "b")] "cat" "a" "cat" 10
        [[("cat", Value.str "g"), ("a", Value.num 10), ("b", Value.num 0)],
         [("cat", Value.str "g"), ("a", Value.num 0), ("b", Value.num 10)]] =
      [[("id", Value.str "g"), ("cat", Value.str "g"), ("count", Value.num 2),
        ("a", Value.num 10), ("b", Value.num 10), ("r", Value.num 1)]] := by
  have hk : groupKeyOf "cat" [("cat", Value.str "g"), ("a", Value.num 10), ("b", Value.num 0)] = "g" := rfl
  have hk2 : groupKeyOf "cat" [("cat", Value.str "g"), ("a", Value.num 0), ("b", Value.num 10)] = "g" := rfl
  have hn : normalizeColumnName "cat" = "cat" := rfl
  have hna : normalizeColumnName "a" = "a" := rfl
  have hnb : normalizeColumnName "b" = "b" := rfl
  constructor
  · norm_num +decide [prepareGroupedData, buildGroups, hk, hk2, hn, hna, hnb, initGroup,
      foldRowIntoGroup, lookup_entry_nil, lookup_entry_cons, setEntry_nil, setEntry_cons,
      getVal_nil, getVal_cons, setVal_nil, setVal_cons, jsOrZero, jsOrOne, jsTruthy, jsTruthyU,
      jsAddU, jsAdd_num_num]
  · norm_num +decide [prepareGroupedDataFixed, buildGroups, hk, hk2, hn, hna, hnb, initGroup,
      foldRowIntoGroup, recalcGroup, sortGroupedBlock, List.insertionSort, List.orderedInsert,
      lookup_entry_nil, lookup_entry_cons, setEntry_nil, setEntry_cons,
      getVal_nil, getVal_cons, setVal_nil, setVal_cons, jsOrZero, jsOrOne, jsTruthy, jsTruthyU,
      jsAddU, jsAdd_num_num, jsDiv_num_num, jsSubCmp, toNumberU, toNumber]

/-! Helper lemmas for the filter stage. -/

lemma mem_applyFilterConfig (column : String) (fc : FilterConfig) (rows : List Row) (row : Row) :
    row ∈ applyFilterConfig column fc rows ↔
      row ∈ rows ∧ passesFilter column fc row = true := by
  cases fc with
  | numeric mn mx value =>
    simp [applyFilterConfig, passesFilter, List.mem_filter]
  | categorical av sel =>
    by_cases h : sel.isEmpty
    · simp [applyFilterConfig, passesFilter, h]
    · simp [applyFilterConfig, passesFilter, h, List.mem_filter]

lemma applyFilterConfig_nil (column : String) (fc : FilterConfig) :
    applyFilterConfig column fc [] = [] := by
  cases fc with
  | numeric mn mx value => rfl
  | categorical av sel =>
    by_cases h : sel.isEmpty <;> simp [applyFilterConfig, h]

lemma applyFilterConfigs_nil (cfgs : List (String × FilterConfig)) :
    applyFilterConfigs cfgs [] = [] := by
  induction cfgs with
  | nil => rfl
  | cons p rest ih =>
    simpa [applyFilterConfigs, applyFilterConfig_nil] using ih

lemma mem_applyFilterConfigs (cfgs : List (String × FilterConfig)) (rows : List Row) (row : Row) :
    row ∈ applyFilterConfigs cfgs rows ↔
      row ∈ rows ∧ ∀ p ∈ cfgs, passesFilter p.1 p.2 row = true := by
  induction cfgs generalizing rows with
  | nil => simp [applyFilterConfigs]
  | cons p rest ih =>
    calc row ∈ applyFilterConfigs (p :: rest) rows
        ↔ row ∈ applyFilterConfig p.1 p.2 rows ∧ ∀ q ∈ rest, passesFilter q.1 q.2 row = true := by
          simpa [applyFilterConfigs] using ih (applyFilterConfig p.1 p.2 rows)
      _ ↔ (row ∈ rows ∧ passesFilter p.1 p.2 row = true) ∧
            (∀ q ∈ rest, passesFilter q.1 q.2 row = true) := by
          rw [mem_applyFilterConfig]
      _ ↔ row ∈ rows ∧ ∀ q ∈ p :: rest, passesFilter q.1 q.2 row = true := by
          constructor
          · rintro ⟨⟨hr, hp⟩, hrest⟩
            refine ⟨hr, ?_⟩
            intro q hq
            rcases List.mem_cons.mp hq with hq | hq
            · subst hq; exact hp
            · exact hrest q hq
          · rintro ⟨hr, hall⟩
            exact ⟨⟨hr, hall p (List.mem_cons_self p rest)⟩,
              fun q hq => hall q (List.mem_cons_of_mem p hq)⟩

lemma applyFilterConfigs_empty_selected (cfgs : List (String × FilterConfig)) (rows : List Row)
    (column : String) (av : List String)
    (h : (column, FilterConfig.categorical av []) ∈ cfgs) :
    applyFilterConfigs cfgs rows = [] := by
  induction cfgs generalizing rows with
  | nil => cases h
  | cons p rest ih =>
    rcases List.mem_cons.mp h with hp | hp
    · subst hp
      show applyFilterConfigs rest (applyFilterConfig column (.categorical av []) rows) = []
      have : applyFilterConfig column (.categorical av []) rows = [] := by
        simp [applyFilterConfig]
      rw [this, applyFilterConfigs_nil]
    · exact ih _ hp

/-! C3: categorical filter semantics and conjunction of filters. -/

/-- C3: a categorical filter with an empty selected set yields zero passing
rows for the whole filter stage; with a non-empty selected set a row passes
that filter exactly when the stringified trimmed column value is in the
set; and the filter stage keeps exactly the rows passing every configured
filter (conjunction across columns). -/
theorem categoricalFilter_semantics (cfgs : List (String × FilterConfig)) (rows : List Row)
    (column : String) (av : List String) :
    ((column, FilterConfig.categorical av []) ∈ cfgs → applyFilterConfigs cfgs rows = []) ∧
    (∀ sel : List String, sel ≠ [] → ∀ row : Row,
      (row ∈ applyFilterConfig column (.categorical av sel) rows ↔
        row ∈ rows ∧ sel.contains (jsTrim (jsToStringU (getVal row column))) = true)) ∧
    (∀ row : Row, row ∈ applyFilterConfigs cfgs rows ↔
      row ∈ rows ∧ ∀ p ∈ cfgs, passesFilter p.1 p.2 row = true) := by
  refine ⟨fun h => applyFilterConfigs_empty_selected cfgs rows column av h, ?_, ?_⟩
  · intro sel hsel row
    have hne : sel.isEmpty = false := by
      cases sel with
      | nil => exact absurd rfl hsel
      | cons a t => rfl
    simp [applyFilterConfig, hne, List.mem_filter]
  · intro row
    exact mem_applyFilterConfigs cfgs rows row

/-- C3 witness: the theorem applied at a one-filter configuration and a
one-row data set. -/
theorem categoricalFilter_semantics_witness :
    (applyFilterConfigs [("c", FilterConfig.categorical ["x"] [])] [[("c", Value.str "x")]] = []) ∧
    ([("c", Value.str "x")] ∈
        applyFilterConfig "c" (.categorical ["x"] ["x"]) [[("c", Value.str "x")]] ↔
      [("c", Value.str "x")] ∈ [[("c", Value.str "x")]] ∧
        ["x"].contains (jsTrim (jsToStringU (getVal [("c", Value.str "x")] "c"))) = true) ∧
    ([("c", Value.str "x")] ∈
        applyFilterConfigs [("c", FilterConfig.categorical ["x"] [])] [[("c", Value.str "x")]] ↔
      [("c", Value.str "x")] ∈ [[("c", Value.str "x")]] ∧
        ∀ p ∈ [("c", FilterConfig.categorical ["x"] [])], passesFilter p.1 p.2 [("c", Value.str "x")] = true) :=
  ⟨(categoricalFilter_semantics [("c", FilterConfig.categorical ["x"] [])]
      [[("c", Value.str "x")]] "c" ["x"]).1 (List.mem_singleton.mpr rfl),
   (categoricalFilter_semantics [("c", FilterConfig.categorical ["x"] [])]
      [[("c", Value.str "x")]] "c" ["x"]).2.1 ["x"] (by decide) [("c", Value.str "x")],
   (categoricalFilter_semantics [("c", FilterConfig.categorical ["x"] [])]
      [[("c", Value.str "x")]] "c" ["x"]).2.2 [("c", Value.str "x")]⟩

/-! C8: the sortBy repair invariant of updateConfig. -/

/-- C8: after every configuration update whose patch carries selected
columns, the resulting sortBy is among the new selected columns, or equals
the x-axis key, or is count with a group-by column set; and when the
merged sortBy is not in that valid set it is repaired to the first
selected column, or to the x-axis key when none are selected. -/
theorem updateConfig_sortBy_invariant (cfg : ChartConfig) (p : ConfigPatch) (l : List String)
    (h : p.selectedColumns = some l) :
    ((updateConfig cfg p).sortBy ∈ (updateConfig cfg p).selectedColumns ∨
     (updateConfig cfg p).sortBy = (updateConfig cfg p).xAxisColumn ∨
     ((updateConfig cfg p).sortBy = "count" ∧ (updateConfig cfg p).groupByColumn.isSome = true)) ∧
    (updateConfig cfg p).selectedColumns = l ∧
    (((mergeConfig cfg p).selectedColumns ++ [(mergeConfig cfg p).xAxisColumn] ++
        (match (mergeConfig cfg p).groupByColumn with
         | some _ => ["count"]
         | none => [])).contains (mergeConfig cfg p).sortBy = false →
      (updateConfig cfg p).sortBy = l.headD (mergeConfig cfg p).xAxisColumn) := by
  have hsel : (mergeConfig cfg p).selectedColumns = l := by
    simp [mergeConfig, h]
  by_cases hc : ((mergeConfig cfg p).selectedColumns ++ [(mergeConfig cfg p).xAxisColumn] ++
      (match (mergeConfig cfg p).groupByColumn with
       | some _ => ["count"]
       | none => [])).contains (mergeConfig cfg p).sortBy = true
  · have hres : updateConfig cfg p = mergeConfig cfg p := by
      unfold updateConfig
      rw [h]
      simp only [hc, if_true]
    have hmem := List.elem_iff.mp hc
    rcases List.mem_append.mp hmem with hmem | hcount
    · rcases List.mem_append.mp hmem with hsel2 | hx
      · refine ⟨Or.inl (by rw [hres]; exact hsel2), by rw [hres, hsel], ?_⟩
        intro hf
        rw [hf] at hc
        exact absurd hc (by decide)
      · refine ⟨Or.inr (Or.inl (by rw [hres]; exact List.mem_singleton.mp hx)),
          by rw [hres, hsel], ?_⟩
        intro hf
        rw [hf] at hc
        exact absurd hc (by decide)
    · cases hgb : (mergeConfig cfg p).groupByColumn with
      | none => rw [hgb] at hcount; cases hcount
      | some g =>
        rw [hgb] at hcount
        refine ⟨Or.inr (Or.inr ⟨by rw [hres]; exact List.mem_singleton.mp hcount,
            by rw [hres]; simp [Option.isSome, hgb]⟩),
          by rw [hres, hsel], ?_⟩
        intro hf
        rw [hgb] at hc
        rw [hf] at hc
        exact absurd hc (by decide)
  · have hcf : ((mergeConfig cfg p).selectedColumns ++ [(mergeConfig cfg p).xAxisColumn] ++
        (match (mergeConfig cfg p).groupByColumn with
         | some _ => ["count"]
         | none => [])).contains (mergeConfig cfg p).sortBy = false := by
      cases hcc : ((mergeConfig cfg p).selectedColumns ++ [(mergeConfig cfg p).xAxisColumn] ++
          (match (mergeConfig cfg p).groupByColumn with
           | some _ => ["count"]
           | none => [])).contains (mergeConfig cfg p).sortBy
      · rfl
      · exact absurd hcc hc
    have hres : updateConfig cfg p =
        { mergeConfig cfg p with sortBy :=
            match (mergeConfig cfg p).selectedColumns with
            | c :: _ => c
            | [] => (mergeConfig cfg p).xAxisColumn } := by
      unfold updateConfig
      rw [h]
      simp only [hcf, Bool.false_eq_true, if_false]
    refine ⟨?_, by rw [hres]; exact hsel, ?_⟩
    · cases hl : (mergeConfig cfg p).selectedColumns with
      | nil =>
        refine Or.inr (Or.inl ?_)
        rw [hres, hl]
      | cons c t =>
        refine Or.inl ?_
        rw [hres, hl]
        exact List.mem_cons_self c t
    · intro _
      rw [hres]
      show (match (mergeConfig cfg p).selectedColumns with
        | c :: _ => c
        | [] => (mergeConfig cfg p).xAxisColumn) = l.headD (mergeConfig cfg p).xAxisColumn
      rw [hsel]
      cases l with
      | nil => rfl
      | cons c t => rfl

/-- C8 witness: the theorem applied at a concrete configuration whose
stale sortBy must be repaired to the first new selected column. -/
theorem updateConfig_sortBy_invariant_witness :
    ((updateConfig ⟨["a"], none, [], [], "line", "zzz", 10, none, "x", false⟩
        ⟨some ["b"], none, none, none, none, none, none, none, none, none⟩).sortBy ∈
      (updateConfig ⟨["a"], none, [], [], "line", "zzz", 10, none, "x", false⟩
        ⟨some ["b"], none, none, none, none, none, none, none, none, none⟩).selectedColumns ∨
     (updateConfig ⟨["a"], none, [], [], "line", "zzz", 10, none, "x", false⟩
        ⟨some ["b"], none, none, none, none, none, none, none, none, none⟩).sortBy =
      (updateConfig ⟨["a"], none, [], [], "line", "zzz", 10, none, "x", false⟩
        ⟨some ["b"], none, none, none, none, none, none, none, none, none⟩).xAxisColumn ∨
     ((updateConfig ⟨["a"], none, [], [], "line", "zzz", 10, none, "x", false⟩
        ⟨some ["b"], none, none, none, none, none, none, none, none, none⟩).sortBy = "count" ∧
      (updateConfig ⟨["a"], none, [], [], "line", "zzz", 10, none, "x", false⟩
        ⟨some ["b"], none, none, none, none, none, none, none, none, none⟩).groupByColumn.isSome = true)) ∧
    (updateConfig ⟨["a"], none, [], [], "line", "zzz", 10, none, "x", false⟩
        ⟨some ["b"], none, none, none, none, none, none, none, none, none⟩).selectedColumns = ["b"] ∧
    (((mergeConfig ⟨["a"], none, [], [], "line", "zzz", 10, none, "x", false⟩
          ⟨some ["b"], none, none, none, none, none, none, none, none, none⟩).selectedColumns ++
        [(mergeConfig ⟨["a"], none, [], [], "line", "zzz", 10, none, "x", false⟩
          ⟨some ["b"], none, none, none, none, none, none, none, none, none⟩).xAxisColumn] ++
        (match (mergeConfig ⟨["a"], none, [], [], "line", "zzz", 10, none, "x", false⟩
          ⟨some ["b"], none, none, none, none, none, none, none, none, none⟩).groupByColumn with
         | some _ => ["count"]
         | none => [])).contains
        (mergeConfig ⟨["a"], none, [], [], "line", "zzz", 10, none, "x", false⟩
          ⟨some ["b"], none, none, none, none, none, none, none, none, none⟩).sortBy = false →
      (updateConfig ⟨["a"], none, [], [], "line", "zzz", 10, none, "x", false⟩
          ⟨some ["b"], none, none, none, none, none, none, none, none, none⟩).sortBy =
        ["b"].headD (mergeConfig ⟨["a"], none, [], [], "line", "zzz", 10, none, "x", false⟩
            ⟨some ["b"], none, none, none, none, none, none, none, none, none⟩).xAxisColumn) :=
  updateConfig_sortBy_invariant ⟨["a"], none, [], [], "line", "zzz", 10, none, "x", false⟩
    ⟨some ["b"], none, none, none, none, none, none, none, none, none⟩ ["b"] rfl

/-! Helper lemmas for the load-time row processing. -/

lemma getVal_foldl_setVal_key (g : String → String) (f : String → Value) :
    ∀ (cols : List String) (row : Row) (k : String),
      getVal (cols.foldl (fun rec c => setVal rec (g c) (f c)) row) k =
        (match cols.reverse.find? (fun c => g c == k) with
         | some c => some (f c)
         | none => getVal row k) := by
  intro cols
  induction cols with
  | nil => intro row k; rfl
  | cons c cs ih =>
    intro row k
    have hstep : (c :: cs).foldl (fun rec c => setVal rec (g c) (f c)) row =
        cs.foldl (fun rec c => setVal rec (g c) (f c)) (setVal row (g c) (f c)) := rfl
    rw [hstep, ih, List.reverse_cons, List.find?_append]
    cases hfind : cs.reverse.find? (fun c => g c == k) with
    | some c0 => simp [Option.or]
    | none =>
      by_cases hgc : g c = k
      · have hb : (g c == k) = true := beq_iff_eq.mpr hgc
        simp [Option.or, List.find?, hb, ← hgc, getVal_setVal_self]
      · have hb : (g c == k) = false := beq_eq_false_iff_ne.mpr hgc
        simp [Option.or, List.find?, hb, getVal_setVal_ne row (g c) k (f c) (fun hh => hgc hh.symm)]

lemma isMissingCell_iff (ov : Option Value) :
    isMissingCell ov = true ↔ ov = none ∨ ov = some Value.null ∨ ov = some (Value.str "") := by
  unfold isMissingCell
  split <;> simp_all

lemma procVal_ne_null (rawData : List Row) (row : Row) (col : String) :
    procVal rawData row col ≠ Value.null := by
  unfold procVal
  cases hv : getVal row col with
  | none => by_cases hs : isStrOpt (firstNonMissing rawData col) = true <;> simp [hs]
  | some v =>
    by_cases hm : v = Value.null ∨ v = Value.str ""
    · by_cases hs : isStrOpt (firstNonMissing rawData col) = true <;> simp [hs, hm]
    · simp [hm]
      intro hv0
      exact absurd (Or.inl hv0) hm

lemma getVal_processRow (rawData : List Row) (columns : List String) (i : ℕ) (row : Row)
    (htot : "total" ∉ columns.map normalizeColumnName)
    (hnd : (columns.map normalizeColumnName).Nodup)
    (col : String) (hcol : col ∈ columns) :
    getVal (processRow rawData columns i row) (normalizeColumnName col) =
      some (procVal rawData row col) := by
  have hne : normalizeColumnName col ≠ "total" := by
    intro hh
    exact htot (hh ▸ List.mem_map_of_mem normalizeColumnName hcol)
  simp only [processRow]
  rw [getVal_setVal_ne _ _ _ _ hne]
  rw [getVal_foldl_setVal_key normalizeColumnName (procVal rawData row) columns
    [("id", Value.num i)] (normalizeColumnName col)]
  have hsome : (columns.reverse.find?
      (fun c => normalizeColumnName c == normalizeColumnName col)).isSome := by
    rw [List.find?_isSome]
    exact ⟨col, List.mem_reverse.mpr hcol, beq_iff_eq.mpr rfl⟩
  cases hfind : columns.reverse.find? (fun c => normalizeColumnName c == normalizeColumnName col) with
  | none => rw [hfind] at hsome; cases hsome
  | some c0 =>
    have hc0 : c0 ∈ columns := List.mem_reverse.mp (List.mem_of_find?_eq_some hfind)
    have hp := List.find?_some hfind
    have heq0 : normalizeColumnName c0 = normalizeColumnName col := by
      simpa using hp
    have : c0 = col := List.inj_on_of_nodup_map hnd hc0 hcol heq0
    rw [this]

lemma getVal_processRow_id (rawData : List Row) (columns : List String) (i : ℕ) (row : Row)
    (hid : "id" ∉ columns.map normalizeColumnName)
    (htot0 : "id" ≠ "total") :
    getVal (processRow rawData columns i row) "id" = some (Value.num i) := by
  simp only [processRow]
  rw [getVal_setVal_ne _ _ _ _ htot0]
  rw [getVal_foldl_setVal_key normalizeColumnName (procVal rawData row) columns
    [("id", Value.num i)] "id"]
  cases hfind : columns.reverse.find? (fun c => normalizeColumnName c == "id") with
  | none => rfl
  | some c0 =>
    have hc0 : c0 ∈ columns := List.mem_reverse.mp (List.mem_of_find?_eq_some hfind)
    have hp := List.find?_some hfind
    have heq0 : normalizeColumnName c0 = "id" := by
      simpa using hp
    exact absurd (heq0 ▸ List.mem_map_of_mem normalizeColumnName hc0) hid

/-! C10: load-time row processing. -/

/-- C10 counterexample: the raw rows (c = x) and (c = null) processed over
column c give a second processed row whose c value is the empty string, so
a processed row can contain an empty-string value for a dataset column,
contradicting the claim as stated. -/
theorem processData_claim_counterexample :
    getVal ((processRows ["c"] [[("c", Value.str "x")], [("c", Value.null)]]).getD 1 []) "c" =
      some (Value.str "") := by
  norm_num +decide [processRows, processRow, procVal, firstNonMissing, isMissingCell, isStrOpt,
    List.enum, List.enumFrom, getVal_nil, getVal_cons, setVal_nil, setVal_cons, jsAdd_num_num,
    normalizeColumnName, List.find?]

/-- C10 amended: after load-time processing, every processed row carries an
id equal to its row index, and every dataset column holds a defined,
non-null value: a missing cell (null, undefined, or empty string) is
replaced by the empty string when the first non-missing value of the
column is a string and by 0 otherwise, and any other cell is kept
unchanged; a missing cell of a string-valued column therefore becomes the
empty string, so empty strings can appear in processed rows. -/
theorem processData_amended (columns : List String) (rawData : List Row) (i : ℕ) (row : Row)
    (hid : "id" ∉ columns.map normalizeColumnName)
    (htot : "total" ∉ columns.map normalizeColumnName)
    (hnd : (columns.map normalizeColumnName).Nodup) :
    (∀ col ∈ columns,
      getVal (processRow rawData columns i row) (normalizeColumnName col) =
          some (procVal rawData row col) ∧
        procVal rawData row col ≠ Value.null ∧
        (isMissingCell (getVal row col) = true →
          procVal rawData row col =
            (if isStrOpt (firstNonMissing rawData col) then Value.str "" else Value.num 0)) ∧
        (isMissingCell (getVal row col) = false →
          some (procVal rawData row col) = getVal row col)) ∧
    getVal (processRow rawData columns i row) "id" = some (Value.num i) := by
  refine ⟨fun col hcol => ⟨getVal_processRow rawData columns i row htot hnd col hcol,
    procVal_ne_null rawData row col, ?_, ?_⟩,
    getVal_processRow_id rawData columns i row hid (by decide)⟩
  · intro hmiss
    unfold procVal
    rcases (isMissingCell_iff _).mp hmiss with h0 | h0 | h0 <;> rw [h0] <;> simp
  · intro hpres
    unfold procVal
    have hnot : ¬ (getVal row col = none ∨ getVal row col = some Value.null ∨
        getVal row col = some (Value.str "")) := by
      rw [← isMissingCell_iff, hpres]
      simp
    cases hv : getVal row col with
    | none => exact absurd (Or.inl hv) hnot
    | some v =>
      have hne2 : ¬ (v = Value.null ∨ v = Value.str "") := by
        intro hor
        rcases hor with h0 | h0 <;> subst h0
        · exact hnot (Or.inr (Or.inl hv))
        · exact hnot (Or.inr (Or.inr hv))
      simp [hne2]

/-- C10 witness: the amended theorem applied to the two-row data set with a
string column whose second cell is null. -/
theorem processData_amended_witness :
    (∀ col ∈ ["c"],
      getVal (processRow [[("c", Value.str "x")], [("c", Value.null)]] ["c"] 1 [("c", Value.null)])
          (normalizeColumnName col) =
          some (procVal [[("c", Value.str "x")], [("c", Value.null)]] [("c", Value.null)] col) ∧
        procVal [[("c", Value.str "x")], [("c", Value.null)]] [("c", Value.null)] col ≠ Value.null ∧
        (isMissingCell (getVal [("c", Value.null)] col) = true →
          procVal [[("c", Value.str "x")], [("c", Value.null)]] [("c", Value.null)] col =
            (if isStrOpt (firstNonMissing [[("c", Value.str "x")], [("c", Value.null)]] col)
             then Value.str "" else Value.num 0)) ∧
        (isMissingCell (getVal [("c", Value.null)] col) = false →
          some (procVal [[("c", Value.str "x")], [("c", Value.null)]] [("c", Value.null)] col) =
            getVal [("c", Value.null)] col)) ∧
    getVal (processRow [[("c", Value.str "x")], [("c", Value.null)]] ["c"] 1 [("c", Value.null)])
        "id" = some (Value.num 1) :=
  processData_amended ["c"] [[("c", Value.str "x")], [("c", Value.null)]] 1 [("c", Value.null)]
    (by decide) (by decide) (by decide)

/-! Helper lemmas for the stackedBar100 renormalization. -/

lemma jsOrZero_num (q : ℚ) : jsOrZero (some (.num q)) = .num q := by
  by_cases h : q = 0
  · simp [jsOrZero, jsTruthy, h]
  · simp [jsOrZero, jsTruthy, h]

lemma foldl_jsAdd_num (row : Row) (qs : String → ℚ) :
    ∀ (cols : List String) (t0 : ℚ), (∀ c ∈ cols, getVal row c = some (.num (qs c))) →
      cols.foldl (fun s c => jsAdd s (jsOrZero (getVal row c))) (Value.num t0) =
        .num (t0 + (cols.map qs).sum) := by
  intro cols
  induction cols with
  | nil => intro t0 _; simp
  | cons c cs ih =>
    intro t0 h
    have hc := h c (List.mem_cons_self c cs)
    have hrest : ∀ c0 ∈ cs, getVal row c0 = some (.num (qs c0)) :=
      fun c0 hc0 => h c0 (List.mem_cons_of_mem c hc0)
    calc (c :: cs).foldl (fun s c => jsAdd s (jsOrZero (getVal row c))) (Value.num t0)
        = cs.foldl (fun s c => jsAdd s (jsOrZero (getVal row c))) (Value.num (t0 + qs c)) := by
          show cs.foldl _ (jsAdd (Value.num t0) (jsOrZero (getVal row c))) = _
          rw [hc, jsOrZero_num, jsAdd_num_num]
      _ = .num ((t0 + qs c) + (cs.map qs).sum) := ih (t0 + qs c) hrest
      _ = .num (t0 + ((c :: cs).map qs).sum) := by rw [List.map_cons, List.sum_cons, add_assoc]

lemma getVal_foldl_setVal_self (f : String → Value) :
    ∀ (cols : List String) (row : Row) (k : String),
      getVal (cols.foldl (fun r c => setVal r c (f c)) row) k =
        if k ∈ cols then some (f k) else getVal row k := by
  intro cols
  induction cols with
  | nil => intro row k; simp
  | cons c cs ih =>
    intro row k
    have hstep : (c :: cs).foldl (fun r c => setVal r c (f c)) row =
        cs.foldl (fun r c => setVal r c (f c)) (setVal row c (f c)) := rfl
    rw [hstep, ih]
    by_cases hk : k ∈ cs
    · simp [hk, List.mem_cons_of_mem c hk]
    · by_cases hkc : k = c
      · subst hkc
        simp [hk, getVal_setVal_self]
      · simp [hk, hkc, getVal_setVal_ne row c k (f c) hkc]

/-! C6: the stackedBar100 renormalization. -/

/-- C6: for both stackedBar100 backends, every selected column of a row
with numeric selected values is renormalized to its percent of the row
total over the selected columns, a row whose selected columns sum to 0
gets exactly 0 (a finite number, never a non-finite value) in every
selected column, other columns are untouched, and the vertical value
domain is fixed to 0..100 (the horizontal scale fixes the maximum 100). -/
theorem stackedBar100_renormalization (selected : List String) (row : Row) (qs : String → ℚ)
    (hnum : ∀ c ∈ selected, getVal row c = some (.num (qs c))) :
    (∀ c ∈ selected,
      getVal (percentifyRow selected row) c =
        some (.num (if 0 < (selected.map qs).sum
          then qs c / (selected.map qs).sum * 100 else 0))) ∧
    ((selected.map qs).sum = 0 →
      ∀ c ∈ selected, getVal (percentifyRow selected row) c = some (.num 0)) ∧
    (∀ k, k ∉ selected → getVal (percentifyRow selected row) k = getVal row k) ∧
    stackedBar100Data selected [row] = [percentifyRow selected row] ∧
    horizontalStackedBar100Data selected [row] = [percentifyRow selected row] ∧
    stackedBar100YDomain = (0, 100) ∧
    horizontalStackedBar100XMax = 100 := by
  have htotal : selected.foldl (fun s c => jsAdd s (jsOrZero (getVal row c))) (Value.num 0) =
      .num ((selected.map qs).sum) := by
    rw [foldl_jsAdd_num row qs selected 0 hnum, zero_add]
  have hval : ∀ k, getVal (percentifyRow selected row) k =
      if k ∈ selected then
        some (if jsGtZero (Value.num ((selected.map qs).sum)) = true
          then jsMul (jsDiv (jsOrZero (getVal row k)) (Value.num ((selected.map qs).sum))) (.num 100)
          else .num 0)
      else getVal row k := by
    intro k
    unfold percentifyRow
    rw [htotal]
    exact getVal_foldl_setVal_self
      (fun c => if jsGtZero (Value.num ((selected.map qs).sum)) = true
        then jsMul (jsDiv (jsOrZero (getVal row c)) (Value.num ((selected.map qs).sum))) (.num 100)
        else .num 0) selected row k
  refine ⟨?_, ?_, ?_, rfl, rfl, rfl, rfl⟩
  · intro c hc
    rw [hval c, if_pos hc, hnum c hc, jsOrZero_num]
    by_cases hpos : 0 < (selected.map qs).sum
    · have hgt : jsGtZero (Value.num ((selected.map qs).sum)) = true := by
        simp [jsGtZero, toNumber, hpos]
      have hnz : (selected.map qs).sum ≠ 0 := ne_of_gt hpos
      simp [hgt, jsDiv, jsMul, toNumber, hnz, hpos, div_mul_eq_mul_div]
    · have hgt : jsGtZero (Value.num ((selected.map qs).sum)) = false := by
        simp [jsGtZero, toNumber]
        exact le_of_not_lt hpos
      simp [hgt, hpos]
  · intro hzero c hc
    rw [hval c, if_pos hc, hzero]
    have hgt : jsGtZero (Value.num 0) = false := by simp [jsGtZero, toNumber]
    simp [hgt]
  · intro k hk
    rw [hval k, if_neg hk]

/-- C6 witness: the theorem applied to the all-zero row (the zero-total
safety case) and to the row (a = 1, b = 3) (percent renormalization). -/
theorem stackedBar100_renormalization_witness :
    (∀ c ∈ ["a", "b"],
      getVal (percentifyRow ["a", "b"] [("a", Value.num 0), ("b", Value.num 0)]) c =
        some (.num 0)) ∧
    (∀ c ∈ ["a", "b"],
      getVal (percentifyRow ["a", "b"] [("a", Value.num 1), ("b", Value.num 3)]) c =
        some (.num (if 0 < ((["a", "b"].map (fun c => if c = "a" then (1 : ℚ) else 3)).sum)
          then (if c = "a" then (1 : ℚ) else 3) /
              ((["a", "b"].map (fun c => if c = "a" then (1 : ℚ) else 3)).sum) * 100
          else 0))) :=
  ⟨(stackedBar100_renormalization ["a", "b"] [("a", Value.num 0), ("b", Value.num 0)]
      (fun _ => 0) (by decide)).2.1 (by norm_num),
   (stackedBar100_renormalization ["a", "b"] [("a", Value.num 1), ("b", Value.num 3)]
      (fun c => if c = "a" then 1 else 3) (by decide)).1⟩

/-! Helper lemma for the scatter branch. -/

lemma scatter_filterMap_filter (c0 y : String) (chartData : List Row) :
    chartData.filterMap (fun row =>
      match getVal row c0, getVal row y with
      | some (.num xq), some (.num yq) => some (setVal (setVal row c0 (.num xq)) y (.num yq))
      | _, _ => none) =
    chartData.filter (fun row => isNumVal (getVal row c0) && isNumVal (getVal row y)) := by
  induction chartData with
  | nil => rfl
  | cons r rest ih =>
    rw [List.filterMap_cons, List.filter_cons]
    cases hx : getVal r c0 with
    | none => simpa [hx, isNumVal] using ih
    | some vx =>
      cases vx with
      | num xq =>
        cases hy : getVal r y with
        | none => simpa [hx, hy, isNumVal] using ih
        | some vy =>
          cases vy with
          | num yq =>
            have h1 : setVal r c0 (Value.num xq) = r := setVal_getVal_id r c0 _ hx
            have h2 : setVal r y (Value.num yq) = r := setVal_getVal_id r y _ hy
            simp [hx, hy, isNumVal, h1, h2, ih]
          | str s => simpa [hx, hy, isNumVal] using ih
          | bool b => simpa [hx, hy, isNumVal] using ih
          | null => simpa [hx, hy, isNumVal] using ih
          | nan => simpa [hx, hy, isNumVal] using ih
      | str s => simpa [hx, isNumVal] using ih
      | bool b => simpa [hx, isNumVal] using ih
      | null => simpa [hx, isNumVal] using ih
      | nan => simpa [hx, isNumVal] using ih

/-! C7: the scatter dispatch. -/

/-- C7: with fewer than two selected columns containing numeric data, the
scatter dispatch returns the explicit need-two-numeric guidance state (a
first-class result of the total dispatch function); otherwise it uses the
first numeric column as x, honors the secondary-axis choice for y exactly
when that choice is a numeric column (second numeric column otherwise),
drops every row where either coordinate is not a finite number, and
returns the explicit no-valid-points state when nothing remains. -/
theorem scatterDispatch_policy (selected : List String) (secondaryAxis : Option String)
    (chartData : List Row) :
    ((selected.filter (hasNumericData chartData)).length < 2 →
      scatterDispatch selected secondaryAxis chartData =
        .needTwoNumeric (selected.filter (hasNumericData chartData)).length) ∧
    (∀ c0 c1 rest, selected.filter (hasNumericData chartData) = c0 :: c1 :: rest →
      ∀ y, y = (match secondaryAxis with
            | some s => if (c0 :: c1 :: rest).contains s then s else c1
            | none => c1) →
        (chartData.filter (fun row => isNumVal (getVal row c0) && isNumVal (getVal row y)) = [] →
          scatterDispatch selected secondaryAxis chartData = .noValidPoints) ∧
        (chartData.filter (fun row => isNumVal (getVal row c0) && isNumVal (getVal row y)) ≠ [] →
          scatterDispatch selected secondaryAxis chartData =
            .chart c0 y (chartData.filter
              (fun row => isNumVal (getVal row c0) && isNumVal (getVal row y))))) := by
  constructor
  · intro hlen
    unfold scatterDispatch
    cases hnc : selected.filter (hasNumericData chartData) with
    | nil => rfl
    | cons a t =>
      cases t with
      | nil => rfl
      | cons b t2 =>
        rw [hnc] at hlen
        simp at hlen
        omega
  · intro c0 c1 rest hnc y hy
    have hbody : scatterDispatch selected secondaryAxis chartData =
        (if (chartData.filter
            (fun row => isNumVal (getVal row c0) && isNumVal (getVal row y))).isEmpty = true
         then .noValidPoints
         else .chart c0 y (chartData.filter
            (fun row => isNumVal (getVal row c0) && isNumVal (getVal row y)))) := by
      simp only [scatterDispatch, hnc]
      rw [← hy, scatter_filterMap_filter]
    constructor
    · intro hempty
      rw [hbody, hempty]
      rfl
    · intro hne
      have : (chartData.filter
          (fun row => isNumVal (getVal row c0) && isNumVal (getVal row y))).isEmpty = false := by
        cases hh : (chartData.filter
            (fun row => isNumVal (getVal row c0) && isNumVal (getVal row y))) with
        | nil => exact absurd hh hne
        | cons a t => rfl
      rw [hbody, this]
      simp

/-- C7 witness: the theorem applied at a one-numeric-column selection
(guidance state), at data with a valid point (chart state), and at data
where no row has both coordinates numeric (empty state). -/
theorem scatterDispatch_policy_witness :
    scatterDispatch ["a", "b"] none [[("a", Value.num 1)]] = .needTwoNumeric 1 ∧
    scatterDispatch ["a", "b"] none [[("a", Value.num 1), ("b", Value.num 2)]] =
      .chart "a" "b" [[("a", Value.num 1), ("b", Value.num 2)]] ∧
    scatterDispatch ["a", "b"] none [[("a", Value.num 1)], [("b", Value.num 2)]] =
      .noValidPoints :=
  ⟨(scatterDispatch_policy ["a", "b"] none [[("a", Value.num 1)]]).1 (by decide),
   (scatterDispatch_policy ["a", "b"] none [[("a", Value.num 1), ("b", Value.num 2)]]).2
     "a" "b" [] (by decide) "b" (by decide) |>.2 (by decide),
   (scatterDispatch_policy ["a", "b"] none [[("a", Value.num 1)], [("b", Value.num 2)]]).2
     "a" "b" [] (by decide) "b" (by decide) |>.1 (by decide)⟩


/-! Helper lemmas for the sort policy. -/

lemma sorted_orderedInsert_loc {α : Type} (r : α → α → Prop) [DecidableRel r] (a : α) :
    ∀ (l : List α), l.Sorted r →
      (∀ b ∈ l, r a b ∨ r b a) →
      (∀ b ∈ l, ∀ c ∈ l, r a b → r b c → r a c) →
      (l.orderedInsert r a).Sorted r := by
  intro l
  induction l with
  | nil => intro _ _ _; simp [List.orderedInsert]
  | cons b t ih =>
    intro hs htot htr
    rw [List.orderedInsert]
    by_cases hab : r a b
    · rw [if_pos hab, List.sorted_cons]
      refine ⟨?_, hs⟩
      intro y hy
      rcases List.mem_cons.mp hy with hy | hy
      · subst hy; exact hab
      · exact htr b (List.mem_cons_self b t) y (List.mem_cons_of_mem b hy) hab
          ((List.sorted_cons.mp hs).1 y hy)
    · rw [if_neg hab, List.sorted_cons]
      constructor
      · intro y hy
        rcases (List.mem_orderedInsert r).mp hy with hy | hy
        · subst hy
          rcases htot b (List.mem_cons_self b t) with h | h
          · exact absurd h hab
          · exact h
        · exact (List.sorted_cons.mp hs).1 y hy
      · exact ih (List.sorted_cons.mp hs).2
          (fun y hy => htot y (List.mem_cons_of_mem b hy))
          (fun y hy z hz => htr y (List.mem_cons_of_mem b hy) z (List.mem_cons_of_mem b hz))

lemma sorted_insertionSort_loc {α : Type} (r : α → α → Prop) [DecidableRel r] :
    ∀ (l : List α),
      (∀ a ∈ l, ∀ b ∈ l, r a b ∨ r b a) →
      (∀ a ∈ l, ∀ b ∈ l, ∀ c ∈ l, r a b → r b c → r a c) →
      (l.insertionSort r).Sorted r := by
  intro l
  induction l with
  | nil => intro _ _; simp
  | cons a t ih =>
    intro htot htr
    rw [List.insertionSort]
    apply sorted_orderedInsert_loc
    · exact ih
        (fun y hy z hz => htot y (List.mem_cons_of_mem a hy) z (List.mem_cons_of_mem a hz))
        (fun y hy z hz w hw => htr y (List.mem_cons_of_mem a hy) z (List.mem_cons_of_mem a hz)
          w (List.mem_cons_of_mem a hw))
    · intro b hb
      exact htot a (List.mem_cons_self a t) b
        (List.mem_cons_of_mem a ((List.mem_insertionSort r).mp hb))
    · intro b hb c hc
      exact htr a (List.mem_cons_self a t)
        b (List.mem_cons_of_mem a ((List.mem_insertionSort r).mp hb))
        c (List.mem_cons_of_mem a ((List.mem_insertionSort r).mp hc))

lemma sortCmp_default (lc : String → String → Int) (s x : String) (a b : Row)
    (h1 : s ≠ "count") (h2 : s ≠ x) :
    sortCmp lc s x a b =
      (if isNullish (getVal a s) && isNullish (getVal b s) then 0
       else if isNullish (getVal a s) then 1
       else if isNullish (getVal b s) then (-1 : ℚ)
       else numOr0 (getVal b s) - numOr0 (getVal a s)) := by
  simp [sortCmp, h1, h2]

lemma sortCmp_count (lc : String → String → Int) (x : String) (a b : Row) (qa qb : ℚ)
    (ha : getVal a "count" = some (.num qa)) (hb : getVal b "count" = some (.num qb)) :
    sortCmp lc "count" x a b = qb - qa := by
  simp [sortCmp, ha, hb, isNullish, jsSubCmp, toNumberU, toNumber]

lemma sortCmp_xstr (lc : String → String → Int) (x : String) (a b : Row) (sa sb : String)
    (hxc : x ≠ "count")
    (ha : getVal a x = some (.str sa)) (hb : getVal b x = some (.str sb)) :
    sortCmp lc x x a b = ((lc sa sb : ℤ) : ℚ) := by
  simp [sortCmp, ha, hb, isNullish, hxc, jsToStringU, jsToString]

lemma nullKeyCmp_props (s' : String) (f : Row → ℚ) (cmp : Row → Row → ℚ) (P : Row → Prop)
    (hc : ∀ a b, P a → P b → cmp a b =
      (if isNullish (getVal a s') && isNullish (getVal b s') then 0
       else if isNullish (getVal a s') then 1
       else if isNullish (getVal b s') then (-1 : ℚ)
       else f b - f a)) :
    (∀ a b, P a → P b → (cmp a b ≤ 0 ∨ cmp b a ≤ 0)) ∧
    (∀ a b c, P a → P b → P c → cmp a b ≤ 0 → cmp b c ≤ 0 → cmp a c ≤ 0) ∧
    (∀ a b, P a → P b → cmp a b ≤ 0 →
      (isNullish (getVal a s') = true → isNullish (getVal b s') = true) ∧
      (isNullish (getVal a s') = false → isNullish (getVal b s') = false → f b ≤ f a)) := by
  refine ⟨?_, ?_, ?_⟩
  · intro a b hpa hpb
    rw [hc a b hpa hpb, hc b a hpb hpa]
    by_cases hna : isNullish (getVal a s') = true <;>
      by_cases hnb : isNullish (getVal b s') = true <;>
        simp [hna, hnb] <;>
          first
            | exact le_total (f b) (f a)
            | norm_num
  · intro a b c hpa hpb hpc hab hbc
    rw [hc a b hpa hpb] at hab
    rw [hc b c hpb hpc] at hbc
    rw [hc a c hpa hpc]
    by_cases hna : isNullish (getVal a s') = true <;>
      by_cases hnb : isNullish (getVal b s') = true <;>
        by_cases hnc2 : isNullish (getVal c s') = true <;>
          simp [hna, hnb, hnc2] at hab hbc ⊢ <;>
            linarith
  · intro a b hpa hpb hab
    rw [hc a b hpa hpb] at hab
    constructor
    · intro h1
      cases hnb : isNullish (getVal b s') with
      | true => rfl
      | false =>
        rw [h1, hnb] at hab
        norm_num at hab
    · intro h1 h2
      rw [h1, h2] at hab
      norm_num at hab
      linarith

lemma strCmp_props (lc : String → String → Int) (key : Row → String) (cmp : Row → Row → ℚ)
    (P : Row → Prop)
    (hTot : ∀ s t, lc s t ≤ 0 ∨ lc t s ≤ 0)
    (hTrans : ∀ s t u, lc s t ≤ 0 → lc t u ≤ 0 → lc s u ≤ 0)
    (hc : ∀ a b, P a → P b → cmp a b = ((lc (key a) (key b) : ℤ) : ℚ)) :
    (∀ a b, P a → P b → (cmp a b ≤ 0 ∨ cmp b a ≤ 0)) ∧
    (∀ a b c, P a → P b → P c → cmp a b ≤ 0 → cmp b c ≤ 0 → cmp a c ≤ 0) ∧
    (∀ a b, P a → P b → cmp a b ≤ 0 → lc (key a) (key b) ≤ 0) := by
  refine ⟨?_, ?_, ?_⟩
  · intro a b hpa hpb
    rw [hc a b hpa hpb, hc b a hpb hpa]
    rcases hTot (key a) (key b) with h | h
    · left
      exact_mod_cast h
    · right
      exact_mod_cast h
  · intro a b c hpa hpb hpc hab hbc
    rw [hc a b hpa hpb] at hab
    rw [hc b c hpb hpc] at hbc
    rw [hc a c hpa hpc]
    have h1 : lc (key a) (key b) ≤ 0 := by exact_mod_cast hab
    have h2 : lc (key b) (key c) ≤ 0 := by exact_mod_cast hbc
    exact_mod_cast hTrans _ _ _ h1 h2
  · intro a b hpa hpb hab
    rw [hc a b hpa hpb] at hab
    exact_mod_cast hab

lemma pairwise_insertionSort_of (r : Row → Row → Prop) [DecidableRel r]
    (S : Row → Row → Prop) (data : List Row)
    (htot : ∀ a ∈ data, ∀ b ∈ data, r a b ∨ r b a)
    (htr : ∀ a ∈ data, ∀ b ∈ data, ∀ c ∈ data, r a b → r b c → r a c)
    (himp : ∀ a ∈ data, ∀ b ∈ data, r a b → S a b) :
    (data.insertionSort r).Pairwise S := by
  have hs := sorted_insertionSort_loc r data htot htr
  refine List.Pairwise.imp_of_mem ?_ hs
  intro a b ha hb hr
  exact himp a ((List.mem_insertionSort r).mp ha) b ((List.mem_insertionSort r).mp hb) hr

lemma sortCmp_xnum (lc : String → String → Int) (x : String) (a b : Row)
    (hxc : x ≠ "count") (hsa : isStrOpt (getVal a x) = false) :
    sortCmp lc x x a b =
      (if isNullish (getVal a x) && isNullish (getVal b x) then 0
       else if isNullish (getVal a x) then 1
       else if isNullish (getVal b x) then (-1 : ℚ)
       else numOr0 (getVal a x) - numOr0 (getVal b x)) := by
  cases hv : getVal a x with
  | none => simp [sortCmp, hv, isNullish, hxc]
  | some v =>
    cases v with
    | str s0 => simp [isStrOpt, hv] at hsa
    | num q => simp [sortCmp, hv, isNullish, hxc]
    | bool b0 => simp [sortCmp, hv, isNullish, hxc]
    | null => simp [sortCmp, hv, isNullish, hxc]
    | nan => simp [sortCmp, hv, isNullish, hxc]


/-- C4 amended: records whose sort-key value is null or undefined sort
last for every ungrouped sort key (rather than being treated as 0); among
non-null values, ungrouped sorting by count is non-increasing by count,
ungrouped sorting by the x-axis key is non-decreasing (by the numeric-aware
collator when the values are strings, by coerced numeric value with
non-numeric coerced to 0 otherwise), and ungrouped sorting by any other
key is non-increasing by coerced numeric value. The grouped sort block
orders count and selected columns non-increasing by raw difference, and
for any other sort key, the x-axis key included, it orders records
ascending by the plain (not numeric-aware) collator applied to the
stringified x-axis values. -/
theorem sortPolicy_amended (lcNum lcPlain : String → String → Int)
    (hTotN : ∀ s t, lcNum s t ≤ 0 ∨ lcNum t s ≤ 0)
    (hTransN : ∀ s t u, lcNum s t ≤ 0 → lcNum t u ≤ 0 → lcNum s u ≤ 0)
    (hTotP : ∀ s t, lcPlain s t ≤ 0 ∨ lcPlain t s ≤ 0)
    (hTransP : ∀ s t u, lcPlain s t ≤ 0 → lcPlain t u ≤ 0 → lcPlain s u ≤ 0)
    (selected : List String) (s x : String) (data : List Row) :
    (s ≠ "count" → s ≠ x →
      (sortData lcNum s x data).Pairwise (fun a b =>
        (isNullish (getVal a s) = true → isNullish (getVal b s) = true) ∧
        (isNullish (getVal a s) = false → isNullish (getVal b s) = false →
          numOr0 (getVal b s) ≤ numOr0 (getVal a s)))) ∧
    ((∀ row ∈ data, ∃ q : ℚ, getVal row "count" = some (.num q)) →
      (sortData lcNum "count" x data).Pairwise (fun a b => ∀ qa qb : ℚ,
        getVal a "count" = some (.num qa) → getVal b "count" = some (.num qb) → qb ≤ qa)) ∧
    (x ≠ "count" → (∀ row ∈ data, ∃ t : String, getVal row x = some (.str t)) →
      (sortData lcNum x x data).Pairwise (fun a b => ∀ sa sb : String,
        getVal a x = some (.str sa) → getVal b x = some (.str sb) → lcNum sa sb ≤ 0)) ∧
    (x ≠ "count" → (∀ row ∈ data, isStrOpt (getVal row x) = false) →
      (sortData lcNum x x data).Pairwise (fun a b =>
        (isNullish (getVal a x) = true → isNullish (getVal b x) = true) ∧
        (isNullish (getVal a x) = false → isNullish (getVal b x) = false →
          numOr0 (getVal a x) ≤ numOr0 (getVal b x)))) ∧
    ((∀ row ∈ data, ∃ q : ℚ, getVal row "count" = some (.num q)) →
      (sortGroupedBlock lcPlain selected "count" x data).Pairwise (fun a b => ∀ qa qb : ℚ,
        getVal a "count" = some (.num qa) → getVal b "count" = some (.num qb) → qb ≤ qa)) ∧
    (s ≠ "count" → selected.contains s = true →
      (∀ row ∈ data, ∃ q : ℚ, getVal row s = some (.num q)) →
      (sortGroupedBlock lcPlain selected s x data).Pairwise (fun a b => ∀ qa qb : ℚ,
        getVal a s = some (.num qa) → getVal b s = some (.num qb) → qb ≤ qa)) ∧
    (s ≠ "count" → selected.contains s = false →
      (sortGroupedBlock lcPlain selected s x data).Pairwise (fun a b =>
        lcPlain (jsToStringU (getVal a x)) (jsToStringU (getVal b x)) ≤ 0)) := by
  refine ⟨?_, ?_, ?_, ?_, ?_, ?_, ?_⟩
  · -- ungrouped, any other key: descending with nulls last
    intro h1 h2
    have props := nullKeyCmp_props s (fun r => numOr0 (getVal r s))
      (fun a b => sortCmp lcNum s x a b) (fun _ => True)
      (fun a b _ _ => sortCmp_default lcNum s x a b h1 h2)
    exact pairwise_insertionSort_of _ _ data
      (fun a _ b _ => props.1 a b trivial trivial)
      (fun a _ b _ c _ => props.2.1 a b c trivial trivial trivial)
      (fun a _ b _ hr => props.2.2 a b trivial trivial hr)
  · -- ungrouped count: descending by numeric count
    intro hcount
    have props := nullKeyCmp_props "count" (fun r => numOr0 (getVal r "count"))
      (fun a b => sortCmp lcNum "count" x a b)
      (fun r => ∃ q : ℚ, getVal r "count" = some (.num q)) ?hc
    case hc =>
      rintro a b ⟨qa, ha⟩ ⟨qb, hb⟩
      simp only [sortCmp_count lcNum x a b qa qb ha hb]
      simp [isNullish, ha, hb, numOr0, toNumber]
    refine pairwise_insertionSort_of _ _ data
      (fun a hA b hB => props.1 a b (hcount a hA) (hcount b hB))
      (fun a hA b hB c hC => props.2.1 a b c (hcount a hA) (hcount b hB) (hcount c hC))
      (fun a hA b hB hr => ?_)
    intro qa qb ha hb
    have := (props.2.2 a b (hcount a hA) (hcount b hB) hr).2
      (by simp [isNullish, ha]) (by simp [isNullish, hb])
    simpa [numOr0, toNumber, ha, hb] using this
  · -- ungrouped x-axis with string values: collator ascending
    intro hxc hstr
    have props := strCmp_props lcNum (fun r => jsToStringU (getVal r x))
      (fun a b => sortCmp lcNum x x a b)
      (fun r => ∃ t : String, getVal r x = some (.str t)) hTotN hTransN ?hc
    case hc =>
      rintro a b ⟨sa, ha⟩ ⟨sb, hb⟩
      simp only [sortCmp_xstr lcNum x a b sa sb hxc ha hb]
      simp [jsToStringU, jsToString, ha, hb]
    refine pairwise_insertionSort_of _ _ data
      (fun a hA b hB => props.1 a b (hstr a hA) (hstr b hB))
      (fun a hA b hB c hC => props.2.1 a b c (hstr a hA) (hstr b hB) (hstr c hC))
      (fun a hA b hB hr => ?_)
    intro sa sb ha hb
    have := props.2.2 a b (hstr a hA) (hstr b hB) hr
    simpa [jsToStringU, jsToString, ha, hb] using this
  · -- ungrouped x-axis without string values: ascending by coerced number
    intro hxc hnostr
    have props := nullKeyCmp_props x (fun r => -(numOr0 (getVal r x)))
      (fun a b => sortCmp lcNum x x a b)
      (fun r => isStrOpt (getVal r x) = false) ?hc
    case hc =>
      intro a b hpa hpb
      simp only [sortCmp_xnum lcNum x a b hxc hpa]
      split_ifs <;> ring
    refine pairwise_insertionSort_of _ _ data
      (fun a hA b hB => props.1 a b (hnostr a hA) (hnostr b hB))
      (fun a hA b hB c hC => props.2.1 a b c (hnostr a hA) (hnostr b hB) (hnostr c hC))
      (fun a hA b hB hr => ?_)
    have hh := props.2.2 a b (hnostr a hA) (hnostr b hB) hr
    exact ⟨hh.1, fun h1 h2 => by have := hh.2 h1 h2; linarith⟩
  · -- grouped count
    intro hcount
    have hblock : sortGroupedBlock lcPlain selected "count" x data =
        data.insertionSort (fun a b => jsSubCmp (getVal b "count") (getVal a "count") ≤ 0) := by
      unfold sortGroupedBlock
      rw [if_pos rfl]
    rw [hblock]
    have props := nullKeyCmp_props "count" (fun r => numOr0 (getVal r "count"))
      (fun a b => jsSubCmp (getVal b "count") (getVal a "count"))
      (fun r => ∃ q : ℚ, getVal r "count" = some (.num q)) ?hc
    case hc =>
      rintro a b ⟨qa, ha⟩ ⟨qb, hb⟩
      simp [jsSubCmp, toNumberU, toNumber, ha, hb, isNullish, numOr0]
    refine pairwise_insertionSort_of _ _ data
      (fun a hA b hB => props.1 a b (hcount a hA) (hcount b hB))
      (fun a hA b hB c hC => props.2.1 a b c (hcount a hA) (hcount b hB) (hcount c hC))
      (fun a hA b hB hr => ?_)
    intro qa qb ha hb
    have := (props.2.2 a b (hcount a hA) (hcount b hB) hr).2
      (by simp [isNullish, ha]) (by simp [isNullish, hb])
    simpa [numOr0, toNumber, ha, hb] using this
  · -- grouped selected column
    intro h1 hsel hnums
    have hblock : sortGroupedBlock lcPlain selected s x data =
        data.insertionSort (fun a b => jsSubCmp (getVal b s) (getVal a s) ≤ 0) := by
      unfold sortGroupedBlock
      rw [if_neg h1, if_pos hsel]
    rw [hblock]
    have props := nullKeyCmp_props s (fun r => numOr0 (getVal r s))
      (fun a b => jsSubCmp (getVal b s) (getVal a s))
      (fun r => ∃ q : ℚ, getVal r s = some (.num q)) ?hc
    case hc =>
      rintro a b ⟨qa, ha⟩ ⟨qb, hb⟩
      simp [jsSubCmp, toNumberU, toNumber, ha, hb, isNullish, numOr0]
    refine pairwise_insertionSort_of _ _ data
      (fun a hA b hB => props.1 a b (hnums a hA) (hnums b hB))
      (fun a hA b hB c hC => props.2.1 a b c (hnums a hA) (hnums b hB) (hnums c hC))
      (fun a hA b hB hr => ?_)
    intro qa qb ha hb
    have := (props.2.2 a b (hnums a hA) (hnums b hB) hr).2
      (by simp [isNullish, ha]) (by simp [isNullish, hb])
    simpa [numOr0, toNumber, ha, hb] using this
  · -- grouped other key: plain collator on stringified x values, ascending
    intro h1 hsel
    have hblock : sortGroupedBlock lcPlain selected s x data =
        data.insertionSort (fun a b =>
          ((lcPlain (jsToStringU (getVal a x)) (jsToStringU (getVal b x)) : ℤ) : ℚ) ≤ 0) := by
      unfold sortGroupedBlock
      have hsel2 : ¬ (selected.contains s = true) := by
        intro hc2
        rw [hc2] at hsel
        exact Bool.noConfusion hsel
      rw [if_neg h1, if_neg hsel2]
    rw [hblock]
    have props := strCmp_props lcPlain (fun r => jsToStringU (getVal r x))
      (fun a b => ((lcPlain (jsToStringU (getVal a x)) (jsToStringU (getVal b x)) : ℤ) : ℚ))
      (fun _ => True) hTotP hTransP (fun a b _ _ => rfl)
    exact pairwise_insertionSort_of _ _ data
      (fun a _ b _ => props.1 a b trivial trivial)
      (fun a _ b _ c _ => props.2.1 a b c trivial trivial trivial)
      (fun a _ b _ hr => props.2.2 a b trivial trivial hr)


lemma lcModel_le_iff (s t : String) : lcModel s t ≤ 0 ↔ s ≤ t := by
  unfold lcModel
  by_cases h1 : s < t
  · rw [if_pos h1]
    constructor
    · intro _
      exact le_of_lt h1
    · intro _
      norm_num
  · rw [if_neg h1]
    by_cases h2 : s = t
    · rw [if_pos h2]
      subst h2
      simp
    · rw [if_neg h2]
      constructor
      · intro h3
        norm_num at h3
      · intro h3
        rcases lt_or_eq_of_le h3 with h4 | h4
        · exact absurd h4 h1
        · exact absurd h4 h2

lemma lcModel_total (s t : String) : lcModel s t ≤ 0 ∨ lcModel t s ≤ 0 := by
  rcases le_total s t with h | h
  · exact Or.inl ((lcModel_le_iff s t).mpr h)
  · exact Or.inr ((lcModel_le_iff t s).mpr h)

lemma lcModel_trans (s t u : String) (h1 : lcModel s t ≤ 0) (h2 : lcModel t u ≤ 0) :
    lcModel s u ≤ 0 :=
  (lcModel_le_iff s u).mpr (le_trans ((lcModel_le_iff s t).mp h1) ((lcModel_le_iff t u).mp h2))

/-- C4 counterexample: sorting by the x-axis key with rows whose x values
are 5 and missing. The claim says the x-axis sort is non-decreasing with
missing values treated as 0, which would put the missing row (0) first;
the code sorts null/undefined last, producing the key sequence 5, 0, which
is not non-decreasing. -/
theorem sortPolicy_claim_counterexample :
    ¬ List.Sorted (· ≤ ·)
      ((sortData lcModel "x" "x" [[("x", Value.num 5)], []]).map
        (fun row => numOr0 (getVal row "x"))) := by
  decide


/-- C4 witness: the amended theorem applied, with the lexicographic
collator model, to concrete two-row data sets for each of the seven sort
situations, discharging every hypothesis. -/
theorem sortPolicy_amended_witness :
    ((sortData lcModel "v" "x" [[("v", Value.num 1)], [("v", Value.num 7)]]).Pairwise (fun a b =>
        (isNullish (getVal a "v") = true → isNullish (getVal b "v") = true) ∧
        (isNullish (getVal a "v") = false → isNullish (getVal b "v") = false →
          numOr0 (getVal b "v") ≤ numOr0 (getVal a "v")))) ∧
    ((sortData lcModel "count" "x"
        [[("count", Value.num 2)], [("count", Value.num 3)]]).Pairwise (fun a b => ∀ qa qb : ℚ,
        getVal a "count" = some (.num qa) → getVal b "count" = some (.num qb) → qb ≤ qa)) ∧
    ((sortData lcModel "x" "x"
        [[("x", Value.str "b")], [("x", Value.str "a")]]).Pairwise (fun a b => ∀ sa sb : String,
        getVal a "x" = some (.str sa) → getVal b "x" = some (.str sb) → lcModel sa sb ≤ 0)) ∧
    ((sortData lcModel "x" "x" [[("x", Value.num 4)], []]).Pairwise (fun a b =>
        (isNullish (getVal a "x") = true → isNullish (getVal b "x") = true) ∧
        (isNullish (getVal a "x") = false → isNullish (getVal b "x") = false →
          numOr0 (getVal a "x") ≤ numOr0 (getVal b "x")))) ∧
    ((sortGroupedBlock lcModel ["v"] "count" "x"
        [[("count", Value.num 2)], [("count", Value.num 3)]]).Pairwise (fun a b => ∀ qa qb : ℚ,
        getVal a "count" = some (.num qa) → getVal b "count" = some (.num qb) → qb ≤ qa)) ∧
    ((sortGroupedBlock lcModel ["v"] "v" "x"
        [[("v", Value.num 1)], [("v", Value.num 7)]]).Pairwise (fun a b => ∀ qa qb : ℚ,
        getVal a "v" = some (.num qa) → getVal b "v" = some (.num qb) → qb ≤ qa)) ∧
    ((sortGroupedBlock lcModel ["v"] "zz" "x"
        [[("x", Value.str "b")], [("x", Value.str "a")]]).Pairwise (fun a b =>
        lcModel (jsToStringU (getVal a "x")) (jsToStringU (getVal b "x")) ≤ 0)) :=
  ⟨(sortPolicy_amended lcModel lcModel lcModel_total lcModel_trans lcModel_total lcModel_trans
      ["v"] "v" "x" [[("v", Value.num 1)], [("v", Value.num 7)]]).1 (by decide) (by decide),
   (sortPolicy_amended lcModel lcModel lcModel_total lcModel_trans lcModel_total lcModel_trans
      ["v"] "v" "x" [[("count", Value.num 2)], [("count", Value.num 3)]]).2.1
      (by intro row hr
          rcases List.mem_cons.mp hr with h | hr2
          · exact ⟨2, by rw [h]; rfl⟩
          · rcases List.mem_cons.mp hr2 with h | hr3
            · exact ⟨3, by rw [h]; rfl⟩
            · cases hr3),
   (sortPolicy_amended lcModel lcModel lcModel_total lcModel_trans lcModel_total lcModel_trans
      ["v"] "v" "x" [[("x", Value.str "b")], [("x", Value.str "a")]]).2.2.1 (by decide)
      (by intro row hr
          rcases List.mem_cons.mp hr with h | hr2
          · exact ⟨"b", by rw [h]; rfl⟩
          · rcases List.mem_cons.mp hr2 with h | hr3
            · exact ⟨"a", by rw [h]; rfl⟩
            · cases hr3),
   (sortPolicy_amended lcModel lcModel lcModel_total lcModel_trans lcModel_total lcModel_trans
      ["v"] "v" "x" [[("x", Value.num 4)], []]).2.2.2.1 (by decide) (by decide),
   (sortPolicy_amended lcModel lcModel lcModel_total lcModel_trans lcModel_total lcModel_trans
      ["v"] "v" "x" [[("count", Value.num 2)], [("count", Value.num 3)]]).2.2.2.2.1
      (by intro row hr
          rcases List.mem_cons.mp hr with h | hr2
          · exact ⟨2, by rw [h]; rfl⟩
          · rcases List.mem_cons.mp hr2 with h | hr3
            · exact ⟨3, by rw [h]; rfl⟩
            · cases hr3),
   (sortPolicy_amended lcModel lcModel lcModel_total lcModel_trans lcModel_total lcModel_trans
      ["v"] "v" "x" [[("v", Value.num 1)], [("v", Value.num 7)]]).2.2.2.2.2.1
      (by decide) (by decide)
      (by intro row hr
          rcases List.mem_cons.mp hr with h | hr2
          · exact ⟨1, by rw [h]; rfl⟩
          · rcases List.mem_cons.mp hr2 with h | hr3
            · exact ⟨7, by rw [h]; rfl⟩
            · cases hr3),
   (sortPolicy_amended lcModel lcModel lcModel_total lcModel_trans lcModel_total lcModel_trans
      ["v"] "zz" "x" [[("x", Value.str "b")], [("x", Value.str "a")]]).2.2.2.2.2.2
      (by decide) (by decide)⟩

end DataViz
